import Mathlib

/-!
Shallow embedding of the data-shaping core of the ApplicationInsights node
library: `Library/EnvelopeFactory.ts` (envelope assembly, stack parsing and
truncation, tag resolution) and the `Util` module (string map sanitization,
duration formatting, correlation-header handling, domain exclusion).

JavaScript strings are modelled as `String` or `List Char` (one entry per
code point; the inputs considered are ASCII so this agrees with UTF-16
units), JS objects used as string dictionaries as association lists in
insertion order, and JS `number` values that only matter as
integer-or-NaN as `JsNum`.  Code that can throw a `TypeError` (property
access on `null`/`undefined`) is modelled with `Except JsError`.
-/

/-- A JS number that is either an integer value or `NaN`.  The telemetry
fields handled by the embedded code only distinguish "a (nonnegative or
negative) numeric value" from `NaN`, which this captures exactly for
integral inputs. -/
inductive JsNum where
  | nan : JsNum
  | int (n : Int) : JsNum
deriving DecidableEq

/-- The `isNaN` test on a `JsNum`. -/
def JsNum.isNaN : JsNum → Bool
  | .nan => true
  | .int _ => false

/-- A runtime exception escaping a modelled function (property access on
`null`/`undefined` raises `TypeError` in JS). -/
inductive JsError where
  | typeError (msg : String) : JsError
deriving DecidableEq

/-- A JS object used as a string-to-string dictionary, in insertion order. -/
abbrev PropMap : Type := List (String × String)

/-- Reading `m[k]`: the value at the first entry for `k`, if any
(JS objects hold at most one entry per key; lists built by `PropMap.set`
keep that invariant). -/
def PropMap.get : PropMap → String → Option String
  | [], _ => none
  | p :: ps, k => if p.1 = k then some p.2 else PropMap.get ps k

/-- Writing `m[k] = v`: replaces the entry in place when the key exists,
otherwise appends a new entry (JS property-assignment order semantics). -/
def PropMap.set (m : PropMap) (k v : String) : PropMap :=
  if m.any (fun p => p.1 = k) then m.map (fun p => if p.1 = k then (k, v) else p)
  else m ++ [(k, v)]

/-- Overlaying every entry of `b` onto `a` with `a[k] = v` assignments,
as a JS `for (var k in b) a[k] = b[k]` loop does. -/
def PropMap.overlay (a b : PropMap) : PropMap :=
  b.foldl (fun acc p => acc.set p.1 p.2) a

/-- JS truthiness of a possibly-absent string: `undefined` and `""` are
falsy, every other string is truthy. -/
def truthy : Option String → Bool
  | none => false
  | some s => s ≠ ""

/-- The JS expression `base || v` for a possibly-absent string `base`:
keeps `base` when truthy, else falls back to `v`. -/
def jsOr (base : Option String) (v : String) : String :=
  match base with
  | none => v
  | some s => if s = "" then v else s

/-- JS whitespace (the `\s` character class): the ASCII blanks plus the
Unicode space separators recognized by JS regular expressions. -/
def isSpaceJ (c : Char) : Bool :=
  let n := c.toNat
  n = 0x20 || n = 0x09 || n = 0x0a || n = 0x0b || n = 0x0c || n = 0x0d ||
  n = 0xa0 || n = 0x1680 || (0x2000 ≤ n && n ≤ 0x200a) ||
  n = 0x2028 || n = 0x2029 || n = 0x202f || n = 0x205f || n = 0x3000 ||
  n = 0xfeff

/-- Characters matched by the JS regex metacharacter for "any character"
(anything except a line terminator). -/
def isDotChar (c : Char) : Bool :=
  let n := c.toNat
  !(n = 0x0a || n = 0x0d || n = 0x2028 || n = 0x2029)

/-- ASCII decimal digit (the `[0-9]` class). -/
def isDigitJ (c : Char) : Bool :=
  '0' ≤ c && c ≤ '9'

/-- Numeric value of a nonempty digit string, as `parseInt` yields on a
string of decimal digits. -/
def digitsToNat (l : List Char) : Nat :=
  l.foldl (fun a c => a * 10 + (c.toNat - '0'.toNat)) 0

/-- `Util.trim` on a character list: strips leading and trailing JS
whitespace (the source replaces a leading and a trailing whitespace run
with the empty string). -/
def trimL (l : List Char) : List Char :=
  ((l.dropWhile isSpaceJ).reverse.dropWhile isSpaceJ).reverse

/-- `Util.trim` on a `String`. -/
def trim (s : String) : String :=
  String.mk (trimL s.data)

/-- `String.prototype.split(sep)` for a one-character separator, on a
character list: always at least one component; a separator at either end
yields an empty component there. -/
def splitOnChar (sep : Char) : List Char → List (List Char)
  | [] => [[]]
  | c :: cs =>
    if c = sep then [] :: splitOnChar sep cs
    else
      match splitOnChar sep cs with
      | t :: ts => (c :: t) :: ts
      | [] => [[c]]

/-- Splitting a header on commas, as `correlationHeader.split(",")`. -/
def splitOnComma (l : List Char) : List (List Char) :=
  splitOnChar ',' l

/-! ## `Util.msToTimeSpan` (duration formatting) -/

/-- Three-digit zero-padded decimal rendering of `n < 1000` (hundreds,
tens, units digits). -/
def pad3 (n : Nat) : String :=
  String.mk [Char.ofNat ('0'.toNat + n / 100 % 10),
    Char.ofNat ('0'.toNat + n / 10 % 10), Char.ofNat ('0'.toNat + n % 10)]

/-- The JS expression `sec.toFixed(7)` for the exact value
`(ms / 1000) % 60` of an integral millisecond count `ms`: the integer
part `(ms % 60000) / 1000` followed by the 7-digit fraction
`(ms % 1000) / 1000` (three decimal digits, then four zeros).  For such
inputs the double rounding error is far below half an ulp of the seventh
decimal digit, so this is the string the runtime produces. -/
def secToFixed7 (ms : Nat) : String :=
  Nat.repr (ms % 60000 / 1000) ++ "." ++ pad3 (ms % 1000) ++ "0000"

/-- The replacement of the trailing-zero run (at most four characters) by
the empty string: the leftmost match of that pattern in `s` is the last
`min 4 t` characters where `t` counts the trailing zeros of `s`. -/
def dropAtMost4TrailingZeros (s : String) : String :=
  let t := (s.data.reverse.takeWhile (fun c => c = '0')).length
  String.mk (s.data.take (s.data.length - min 4 t))

/-- `s.indexOf(".")` of a string containing a dot. -/
def idxOfDot (s : String) : Nat :=
  s.data.findIdx (fun c => c = '.')

/-- The seconds segment: the toFixed-and-trim rendering of
`(ms / 1000) % 60`, left-padded with a zero when the digits before the
dot are fewer than two. -/
def secPart (ms : Nat) : String :=
  let sec := dropAtMost4TrailingZeros (secToFixed7 ms)
  if idxOfDot sec < 2 then "0" ++ sec else sec

/-- The minutes segment, zero-padded to two digits. -/
def minPart (ms : Nat) : String :=
  let m := Nat.repr (ms / (1000 * 60) % 60)
  if m.length < 2 then "0" ++ m else m

/-- The hours segment, zero-padded to two digits. -/
def hourPart (ms : Nat) : String :=
  let h := Nat.repr (ms / (1000 * 60 * 60) % 24)
  if h.length < 2 then "0" ++ h else h

/-- The rendering on the clamped (nonnegative integral) millisecond
count: day count and optional day prefix, then the three colon-separated
segments. -/
def msToTimeSpanOfMs (ms : Nat) : String :=
  let days := ms / (1000 * 60 * 60 * 24)
  let daysText := if days > 0 then Nat.repr days ++ "." else ""
  daysText ++ hourPart ms ++ ":" ++ minPart ms ++ ":" ++ secPart ms

/-- `Util.msToTimeSpan`: renders a millisecond count in the
days.hours:minutes:seconds.fraction textual duration format.  `NaN` and
negative inputs are first clamped to zero. -/
def msToTimeSpan (totalms : JsNum) : String :=
  msToTimeSpanOfMs
    (match totalms with
     | .nan => 0
     | .int n => if n < 0 then 0 else n.toNat)

/-! ## `Util.canIncludeCorrelationHeader` (domain exclusion)

The source builds, for each excluded-domain pattern, the regex
`new RegExp(pattern.replace(dot, dot).replace(star, dotstar))`: the first
replacement rewrites every dot to itself (a no-op, leaving the dot an
unescaped metacharacter), the second rewrites every `*` to "any
substring".  For patterns whose characters other than `*` and `.` carry
no regex meta-meaning (as hostname patterns are), the compiled regex is
exactly the token list below: `*` matches any substring, `.` any single
non-line-terminator character, anything else itself.  `regex.test` then
looks for a match anywhere in the hostname (the pattern is unanchored). -/

/-- One token of the compiled exclusion regex. -/
inductive GlobTok where
  | starAny : GlobTok
  | anyChar : GlobTok
  | lit (c : Char) : GlobTok
deriving DecidableEq

/-- Compilation of an exclusion pattern, following the source translation
(`*` to any-substring, unescaped `.` to any-character, the rest literal). -/
def compilePattern (p : List Char) : List GlobTok :=
  p.map fun c => if c = '*' then .starAny else if c = '.' then .anyChar else .lit c

/-- The any-substring quantifier: tries to match the continuation `f` at
the current position and, failing that, consumes one any-class character
and retries. -/
def starLoop (f : List Char → Bool) : List Char → Bool
  | [] => f []
  | x :: xs => f (x :: xs) || (isDotChar x && starLoop f xs)

/-- Whether the token list matches some prefix of `s`. -/
def toksMatch : List GlobTok → List Char → Bool
  | [], _ => true
  | .lit c :: ts, s =>
    match s with
    | x :: xs => c = x && toksMatch ts xs
    | [] => false
  | .anyChar :: ts, s =>
    match s with
    | x :: xs => isDotChar x && toksMatch ts xs
    | [] => false
  | .starAny :: ts, s => starLoop (toksMatch ts) s

/-- `regex.test(hostname)`: an unanchored search, true when the token
list matches starting at any position of `s`. -/
def regexTest (ts : List GlobTok) : List Char → Bool
  | [] => toksMatch ts []
  | x :: xs => toksMatch ts (x :: xs) || regexTest ts xs

/-- The per-pattern loop of `Util.canIncludeCorrelationHeader`: a missing
or empty parsed hostname excludes the header, as does the first pattern
whose compiled regex matches the hostname. -/
def excludedDomainsLoop (hostname : Option (List Char)) :
    List (List Char) → Bool
  | [] => true
  | p :: ps =>
    match hostname with
    | none => false
    | some h =>
      if h.isEmpty then false
      else if regexTest (compilePattern p) h then false
      else excludedDomainsLoop hostname ps

/-- `Util.canIncludeCorrelationHeader`, over the exclusion list of the
client config and the hostname parsed from the request url (the
client/config plumbing and `url.parse` are external collaborators; a
missing config, an empty exclusion list, and an empty request url all
short-circuit to `true` in the source, captured by the emptiness test). -/
def canIncludeCorrelationHeader (excludedDomains : List (List Char))
    (hostname : Option (List Char)) : Bool :=
  if excludedDomains.isEmpty then true
  else excludedDomainsLoop hostname excludedDomains

/-! ## `Util.addCorrelationIdHeaderFromString` (correlation header merge) -/

/-- `Util.addCorrelationIdHeaderFromString`: the resulting value of the
request-context header.  `srcKey` is the reserved source-identity key
(the constant `RequestResponseHeaders.requestContextSourceKey`, defined
outside the embedded sources) and `correlationId` the configured
correlation id.  The header splits on commas; when no component already
starts with `srcKey` followed by an equals sign, one such component is
appended, otherwise the header is left as it was. -/
def addCorrelationIdHeaderFromString (srcKey correlationId header : List Char) :
    List Char :=
  let components := splitOnComma header
  let key := srcKey ++ ['=']
  let found := components.any (fun c => key.isPrefixOf c)
  if found then header
  else header ++ [','] ++ srcKey ++ ['='] ++ correlationId

/-! ## `Util.validateStringMap` (property sanitizer)

`JsVal` models the JS values a property bag can hold.  Two external
refinements of `Util.extractObject` are not represented: reduction of
`Error` instances to a message/code pair and custom `toJSON` methods
(both concern host objects outside this value universe), so extraction
is the identity here and `JSON.stringify` never throws (an inductive
value has no cycles). -/

/-- A JavaScript value. -/
inductive JsVal where
  | vstr (s : String) : JsVal
  | vnum (n : JsNum) : JsVal
  | vbool (b : Bool) : JsVal
  | vnull : JsVal
  | vundef : JsVal
  | vfunc : JsVal
  | varr (elems : List JsVal) : JsVal
  | vobj (fields : List (String × JsVal)) : JsVal

/-- The `typeof` operator (`typeof null` is `"object"` in JS). -/
def jsTypeof : JsVal → String
  | .vstr _ => "string"
  | .vnum _ => "number"
  | .vbool _ => "boolean"
  | .vnull => "object"
  | .vundef => "undefined"
  | .vfunc => "function"
  | .varr _ => "object"
  | .vobj _ => "object"

/-- `Util.isPrimitive`: string, number or boolean. -/
def isPrimitiveJ (v : JsVal) : Bool :=
  jsTypeof v = "string" || jsTypeof v = "number" || jsTypeof v = "boolean"

/-- `Util.isArray`. -/
def isArrayJ : JsVal → Bool
  | .varr _ => true
  | _ => false

/-- JS `toString` of a number (`NaN` renders as the string NaN). -/
def jsNumToString : JsNum → String
  | .nan => "NaN"
  | .int n => if n < 0 then "-" ++ Nat.repr n.natAbs else Nat.repr n.toNat

/-- `origProperty.toString()` for a primitive value. -/
def primToString : JsVal → String
  | .vstr s => s
  | .vnum n => jsNumToString n
  | .vbool b => if b then "true" else "false"
  | _ => ""

/-- `Util.extractObject`: the identity on this value universe (see the
section comment). -/
def extractObject (v : JsVal) : JsVal := v

/-- JSON string quoting as `JSON.stringify` performs it. -/
def jsonQuote (s : String) : String :=
  "\"" ++ String.join (s.data.map fun c =>
    if c = '"' then "\\\""
    else if c = '\\' then "\\\\"
    else if c = '\n' then "\\n"
    else if c = '\r' then "\\r"
    else if c = '\t' then "\\t"
    else String.singleton c) ++ "\""

mutual

/-- `JSON.stringify`, `none` when the result is `undefined` (top-level
`undefined` or function). -/
def jsonStringify : JsVal → Option String
  | .vstr s => some (jsonQuote s)
  | .vnum .nan => some "null"
  | .vnum (.int n) => some (jsNumToString (.int n))
  | .vbool b => some (if b then "true" else "false")
  | .vnull => some "null"
  | .vundef => none
  | .vfunc => none
  | .varr l => some ("[" ++ String.intercalate "," (jsonItems l) ++ "]")
  | .vobj fs => some ("\x7b" ++ String.intercalate "," (jsonEntries fs) ++ "\x7d")

/-- Array items: an unserializable item renders as JSON null. -/
def jsonItems : List JsVal → List String
  | [] => []
  | e :: es => (jsonStringify e).getD "null" :: jsonItems es

/-- Object entries: keys with unserializable values are omitted. -/
def jsonEntries : List (String × JsVal) → List String
  | [] => []
  | (k, v) :: fs =>
    match jsonStringify v with
    | some s => (jsonQuote k ++ ":" ++ s) :: jsonEntries fs
    | none => jsonEntries fs

end

/-- The body of the `for (const field in obj)` loop of
`Util.validateStringMap`, producing the string stored for one field
before truncation; `none` when the entry is dropped (function-typed
values). -/
def sanitizeValue (v : JsVal) : Option String :=
  if isPrimitiveJ v then some (primToString v)
  else
    match v with
    | .vnull => some ""
    | .vundef => some ""
    | .vfunc => none
    | w =>
      let stringTarget := if isArrayJ w then w else extractObject w
      if isPrimitiveJ stringTarget then some (primToString stringTarget)
      else some ((jsonStringify stringTarget).getD "undefined")

/-- The own enumerable properties `for..in` iterates: an object yields
its fields, an array its index/element pairs, `null` none. -/
def jsFields : JsVal → List (String × JsVal)
  | .vobj fs => fs
  | .varr l => l.enum.map fun p => (Nat.repr p.1, p.2)
  | _ => []

/-- `Util.MAX_PROPERTY_LENGTH`. -/
def MAX_PROPERTY_LENGTH : Nat := 8192

/-- `property.substring(0, n)`. -/
def strTake (s : String) (n : Nat) : String :=
  String.mk (s.data.take n)

/-- `Util.validateStringMap`: `none` (the undefined sentinel) unless
`typeof obj` is object; otherwise every enumerable field is stringified
by `sanitizeValue` and truncated to `MAX_PROPERTY_LENGTH` characters. -/
def validateStringMap (obj : JsVal) : Option PropMap :=
  if jsTypeof obj ≠ "object" then none
  else some ((jsFields obj).foldl (fun m p =>
    match sanitizeValue p.2 with
    | none => m
    | some s => m.set p.1 (strTake s MAX_PROPERTY_LENGTH)) [])

/-! ## `EnvelopeFactory.parseStack` and `_StackFrame`

The frame pattern is the regex (in order): an optional group of
whitespace followed by the letters `at`; a lazy any-character group
(the method name, capture 2); an alternation of a commercial at, or
whitespace plus an opening parenthesis, or a single whitespace; a
greedy nonempty run of characters other than opening parenthesis,
commercial at and newline (the file name, capture 4); a colon; digits
(the line, capture 5); a colon; digits (the column); an optional closing
parenthesis; end of input.  The matcher below implements exactly the JS
backtracking engine order on that pattern (greedy runs longest-first,
the lazy group shortest-first, alternatives left to right), returning
the captures of the first match. -/

/-- The captures needed by the `_StackFrame` constructor: groups 2
(method), 4 (file name) and 5 (line). -/
structure FrameCaps where
  g2 : List Char
  g4 : List Char
  g5 : List Char
deriving DecidableEq

/-- Greedy quantifier driver: tries lengths `k, k-1, ..., 1`. -/
def tryLensDown (f : Nat → Option FrameCaps) : Nat → Option FrameCaps
  | 0 => none
  | k + 1 => (f (k + 1)).orElse fun _ => tryLensDown f k

/-- Digits, colon, digits, optional closing parenthesis, end of input
(groups 5 to 7 of the pattern), returning capture 5. -/
def matchLineCol (s : List Char) : Option FrameCaps :=
  let m5 := (s.takeWhile isDigitJ).length
  tryLensDown (fun k5 =>
    let g5 := s.take k5
    match s.drop k5 with
    | ':' :: r2 =>
      let m6 := (r2.takeWhile isDigitJ).length
      tryLensDown (fun k6 =>
        match r2.drop k6 with
        | [] => some ⟨[], [], g5⟩
        | [')'] => some ⟨[], [], g5⟩
        | _ => none) m6
    | _ => none) m5

/-- Characters admitted by the file-name class (anything but an opening
parenthesis, a commercial at and a newline). -/
def isFileChar (c : Char) : Bool :=
  !(c = '(' || c = '@' || c = '\n')

/-- One candidate length for group 4: the first `k` characters as the
file-name capture, which must be followed by a colon and the line/column
tail. -/
def fileCandAt (s : List Char) (k : Nat) : Option FrameCaps :=
  match s.drop k with
  | ':' :: r => (matchLineCol r).map fun c => ⟨[], s.take k, c.g5⟩
  | _ => none

/-- The greedy driver for group 4: candidate lengths `k, k-1, ..., 1`. -/
def fileCandLoop (s : List Char) : Nat → Option FrameCaps
  | 0 => none
  | k + 1 => (fileCandAt s (k + 1)).orElse fun _ => fileCandLoop s k

/-- Group 4 (greedy nonempty file-name run), then a colon, then
`matchLineCol`. -/
def matchFileAndLine (s : List Char) : Option FrameCaps :=
  fileCandLoop s ((s.takeWhile isFileChar).length)

/-- Group 3, the alternation tried left to right: a commercial at, or a
whitespace followed by an opening parenthesis, or a single whitespace. -/
def matchSeparatorOn (s : List Char) : Option FrameCaps :=
  (match s with
   | '@' :: r => matchFileAndLine r
   | _ => none).orElse fun _ =>
  (match s with
   | c :: '(' :: r => if isSpaceJ c then matchFileAndLine r else none
   | _ => none).orElse fun _ =>
  match s with
  | c :: r => if isSpaceJ c then matchFileAndLine r else none
  | _ => none

/-- Group 2 (the lazy any-character method-name run, shortest first):
the separator and the rest of the pattern are tried at the current
position first; on failure one more any-class character joins the
accumulated method capture `g2` and the scan advances (when the next
character is not in the any class, every longer method capture would
contain it too, so the whole attempt fails, exactly as the engine
does after exhausting the positions). -/
def matchMethodFrom (g2 : List Char) : List Char → Option FrameCaps
  | [] =>
    match matchSeparatorOn [] with
    | some c => some ⟨g2, c.g4, c.g5⟩
    | none => none
  | x :: xs =>
    match matchSeparatorOn (x :: xs) with
    | some c => some ⟨g2, c.g4, c.g5⟩
    | none => if isDotChar x then matchMethodFrom (g2 ++ [x]) xs else none

/-- Group 1, the optional leading whitespace-plus-`at` (whitespace run
longest first, then the empty alternative), followed by the rest. -/
def matchAfterWs (s : List Char) : Nat → Option FrameCaps
  | 0 => matchMethodFrom [] s
  | k + 1 =>
    (match (s.drop (k + 1)) with
     | 'a' :: 't' :: r => matchMethodFrom [] r
     | _ => none).orElse fun _ => matchAfterWs s k

/-- `_StackFrame.regex.exec(frame)`: the captures of the first match, or
`none` when the frame line does not match (`regex.test` is
`(matchFrame f).isSome`). -/
def matchFrame (s : List Char) : Option FrameCaps :=
  matchAfterWs s (s.takeWhile isSpaceJ).length

/-- A parsed stack frame (`_StackFrame`). -/
structure StackFrame where
  level : Nat
  method : List Char
  assembly : List Char
  fileName : List Char
  line : Nat
  sizeInBytes : Nat
deriving DecidableEq

instance : Inhabited StackFrame :=
  ⟨⟨0, [], [], [], 0, 0⟩⟩

/-- `_StackFrame.baseSize`: fixed per-frame serialization overhead. -/
def StackFrame.baseSize : Nat := 58

/-- The `_StackFrame` constructor on a frame line whose match produced
`caps` (the constructor is only invoked on lines the regex accepted, so
the match is present and has at least five groups): the method defaults
to a placeholder when capture 2 trims to nothing, as does the file name
for capture 4; `sizeInBytes` sums the method, file-name and trimmed-line
lengths, the base size, and the decimal lengths of level and line. -/
def mkStackFrame (frame : List Char) (level : Nat) (caps : FrameCaps) :
    StackFrame :=
  let method :=
    if trimL caps.g2 = [] then "<no_method>".data else trimL caps.g2
  let assembly := trimL frame
  let fileName :=
    if trimL caps.g4 = [] then "<no_filename>".data else trimL caps.g4
  let line := digitsToNat caps.g5
  { level := level, method := method, assembly := assembly,
    fileName := fileName, line := line,
    sizeInBytes := method.length + fileName.length + assembly.length +
      StackFrame.baseSize + (Nat.repr level).length + (Nat.repr line).length }

/-- The parsing phase of `EnvelopeFactory.parseStack`: the stack string
splits on newlines and every line accepted by the frame regex becomes a
`StackFrame`, with `level` counting accepted frames from 0.  (The source
loop runs one index past the last line; the extra access yields
`undefined`, which the regex — needing a colon-digits-colon-digits tail —
rejects, so the iteration is a no-op and is not represented.) -/
def parseStep (acc : List StackFrame × Nat) (f : List Char) :
    List StackFrame × Nat :=
  match matchFrame f with
  | some caps => (acc.1 ++ [mkStackFrame f acc.2 caps], acc.2 + 1)
  | none => acc

def parseFrames (stack : List Char) : List StackFrame :=
  ((splitOnChar '\n' stack).foldl parseStep ([], 0)).1

/-- Total `sizeInBytes` of a frame list (the running
`totalSizeInBytes`). -/
def sumSizes (l : List StackFrame) : Nat :=
  (l.map StackFrame.sizeInBytes).sum

/-- The DP-constraint threshold: 32 KiB. -/
def exceptionParsedStackThreshold : Nat := 32 * 1024

/-- The symmetric two-pointer scan of `parseStack`: starting from both
ends, keeps accumulating the sizes of the boundary pair; when the
running size first exceeds the threshold it reports the splice
`(acceptedLeft, howMany)` of the still-unconsumed middle block; when the
pointers meet first, no splice happens (`none`). -/
def spliceLoop (ps : List StackFrame) (left : Nat) :
    Nat → Nat → Nat → Nat → Option (Nat × Nat)
  | 0, _, _, _ => none
  | right + 1, size, accL, accR =>
    if left < right + 1 then
      let size := size + (ps.getD left default).sizeInBytes +
        (ps.getD (right + 1) default).sizeInBytes
      if size > exceptionParsedStackThreshold then
        some (accL, accR + 1 - accL)
      else spliceLoop ps (left + 1) right size left (right + 1)
    else none

/-- `EnvelopeFactory.parseStack` on a string input: parse all frames,
then, when their total size exceeds the threshold, remove the middle
block reported by the two-pointer scan (a `splice(start, count)`, i.e.
keep the prefix before `start` and the suffix from `start + count`). -/
def parseStack (stack : List Char) : List StackFrame :=
  let parsedStack := parseFrames stack
  if sumSizes parsedStack > exceptionParsedStackThreshold then
    match spliceLoop parsedStack 0 (parsedStack.length - 1) 0 0
        (parsedStack.length - 1) with
    | some (start, count) =>
      parsedStack.take start ++ parsedStack.drop (start + count)
    | none => parsedStack
  else parsedStack

/-- `parseStack` on an arbitrary (possibly non-string) input: a
non-string yields the undefined sentinel. -/
def parseStackAny : Option (List Char) → Option (List StackFrame)
  | some s => some (parseStack s)
  | none => none

/-! ## Contracts and the envelope assembler

The `Contracts` module is an external declaration package; the pieces the
assembler reads are modelled from the spec: the six `DataTypes`
discriminator strings (family name plus the four characters `Data`, so
that stripping the trailing four characters yields the short name), the
numeric severity constants, and `domainSupportsProperties`, which is
true for every one of the six bodies since each carries a properties
bag. -/

/-- Modelled from the spec: `Contracts.DataTypes.MESSAGE`. -/
def DataTypes.MESSAGE : String := "MessageData"

/-- Modelled from the spec: `Contracts.DataTypes.REMOTE_DEPENDENCY`. -/
def DataTypes.REMOTE_DEPENDENCY : String := "RemoteDependencyData"

/-- Modelled from the spec: `Contracts.DataTypes.EVENT`. -/
def DataTypes.EVENT : String := "EventData"

/-- Modelled from the spec: `Contracts.DataTypes.EXCEPTION`. -/
def DataTypes.EXCEPTION : String := "ExceptionData"

/-- Modelled from the spec: `Contracts.DataTypes.REQUEST`. -/
def DataTypes.REQUEST : String := "RequestData"

/-- Modelled from the spec: `Contracts.DataTypes.METRIC`. -/
def DataTypes.METRIC : String := "MetricData"

/-- The six recognized telemetry type discriminators, in dispatch order. -/
def recognizedTypes : List String :=
  [DataTypes.MESSAGE, DataTypes.REMOTE_DEPENDENCY, DataTypes.EVENT,
   DataTypes.EXCEPTION, DataTypes.REQUEST, DataTypes.METRIC]

/-- Modelled from the spec: `Contracts.SeverityLevel.Information`
(default severity for traces). -/
def SeverityLevel.Information : Int := 1

/-- Modelled from the spec: `Contracts.SeverityLevel.Error` (severity
stamped on exception telemetry). -/
def SeverityLevel.Error : Int := 3

/-- Measurements bag (string to number). -/
abbrev Measurements : Type := List (String × JsNum)

/-- The language-native error object carried by exception telemetry:
message, constructor name, and the raw stack (absent when the engine
provided none). -/
structure ErrorLike where
  message : String
  name : String
  stack : Option (List Char)
deriving DecidableEq

/-- A telemetry record: the union of the fields the six converters read
(the source casts the common `Telemetry` base to the variant type and
reads these directly). -/
structure Telemetry where
  message : String := ""
  severity : JsNum := .nan
  name : String := ""
  data : String := ""
  target : String := ""
  duration : JsNum := .nan
  success : Bool := true
  dependencyTypeName : String := ""
  dependencyId : String := ""
  id : String := ""
  url : String := ""
  source : String := ""
  resultCode : String := ""
  count : JsNum := .nan
  max : JsNum := .nan
  min : JsNum := .nan
  stdDev : JsNum := .nan
  value : JsNum := .nan
  exception : ErrorLike := ⟨"", "", none⟩
  properties : Option PropMap := none
  measurements : Option Measurements := none
  tagOverrides : Option PropMap := none
deriving DecidableEq

/-- `Contracts.MessageData`. -/
structure MessageData where
  message : String
  properties : Option PropMap
  severityLevel : Int
deriving DecidableEq

/-- `Contracts.RemoteDependencyData`. -/
structure RemoteDependencyData where
  name : String
  data : String
  target : String
  duration : String
  success : Bool
  type : String
  properties : Option PropMap
  id : String
deriving DecidableEq

/-- `Contracts.EventData`. -/
structure EventData where
  name : String
  properties : Option PropMap
  measurements : Option Measurements
deriving DecidableEq

/-- `Contracts.ExceptionDetails`. -/
structure ExceptionDetails where
  message : String
  typeName : String
  parsedStack : Option (List StackFrame)
  hasFullStack : Bool
deriving DecidableEq

/-- `Contracts.ExceptionData`. -/
structure ExceptionData where
  properties : Option PropMap
  severityLevel : Int
  measurements : Option Measurements
  exceptions : List ExceptionDetails
deriving DecidableEq

/-- `Contracts.RequestData`. -/
structure RequestData where
  id : String
  name : String
  url : String
  source : String
  duration : String
  responseCode : String
  success : Bool
  properties : Option PropMap
deriving DecidableEq

/-- `Contracts.DataPoint` (kind is the aggregation constant). -/
structure DataPoint where
  count : Int
  kind : Nat
  max : JsNum
  min : JsNum
  name : String
  stdDev : JsNum
  value : JsNum
deriving DecidableEq

/-- `Contracts.MetricData`. -/
structure MetricData where
  metrics : List DataPoint
  properties : Option PropMap
deriving DecidableEq

/-- The typed body of an envelope (`baseData`), one case per variant. -/
inductive BaseData where
  | message (d : MessageData) : BaseData
  | remoteDependency (d : RemoteDependencyData) : BaseData
  | event (d : EventData) : BaseData
  | exception (d : ExceptionData) : BaseData
  | request (d : RequestData) : BaseData
  | metric (d : MetricData) : BaseData
deriving DecidableEq

/-- The `properties` bag of a body (every variant carries one). -/
def BaseData.properties : BaseData → Option PropMap
  | .message d => d.properties
  | .remoteDependency d => d.properties
  | .event d => d.properties
  | .exception d => d.properties
  | .request d => d.properties
  | .metric d => d.properties

/-- Assignment to the `properties` bag of a body. -/
def BaseData.setProperties : BaseData → Option PropMap → BaseData
  | .message d, p => .message { d with properties := p }
  | .remoteDependency d, p => .remoteDependency { d with properties := p }
  | .event d, p => .event { d with properties := p }
  | .exception d, p => .exception { d with properties := p }
  | .request d, p => .request { d with properties := p }
  | .metric d, p => .metric { d with properties := p }

/-- Modelled from the spec: `Contracts.domainSupportsProperties`, true
for all six bodies produced here (each supports a properties bag). -/
def domainSupportsProperties (_d : BaseData) : Bool := true

/-- `Contracts.Data<T>`: discriminator plus typed body. -/
structure DataRec where
  baseType : String
  baseData : BaseData
deriving DecidableEq

/-- `Contracts.Envelope` (the fields the assembler writes). -/
structure Envelope where
  data : Option DataRec
  iKey : String
  name : String
  tags : PropMap
  time : String
  ver : Nat
  sampleRate : Int
deriving DecidableEq

/-- Well-known tag key names exposed by the client context. -/
structure ContextKeys where
  operationId : String
  operationName : String
  operationParentId : String
deriving DecidableEq

/-- The client `Context`: default tags plus the well-known key names. -/
structure Context where
  tags : PropMap
  keys : ContextKeys
deriving DecidableEq

/-- The ambient correlation context operation (external, read-only). -/
structure CorrelationOperation where
  id : String
  name : String
  parentId : String
deriving DecidableEq

/-- The ambient correlation context returned by
`CorrelationContextManager.getCurrentContext` (modelled as an explicit
argument; `none` when no context is active). -/
structure CorrelationContext where
  operation : CorrelationOperation
deriving DecidableEq

/-- The client `Config` fields the assembler reads. -/
structure Config where
  instrumentationKey : String
  samplingPercentage : Int
deriving DecidableEq

/-- `EnvelopeFactory.createTraceData`. -/
def createTraceData (telemetry : Telemetry) : DataRec :=
  let severityLevel :=
    if !telemetry.severity.isNaN then
      match telemetry.severity with
      | .int n => n
      | .nan => SeverityLevel.Information
    else SeverityLevel.Information
  { baseType := DataTypes.MESSAGE,
    baseData := .message
      { message := telemetry.message, properties := telemetry.properties,
        severityLevel := severityLevel } }

/-- `EnvelopeFactory.createDependencyData`. -/
def createDependencyData (telemetry : Telemetry) : DataRec :=
  { baseType := DataTypes.REMOTE_DEPENDENCY,
    baseData := .remoteDependency
      { name := telemetry.name, data := telemetry.data,
        target := telemetry.target,
        duration := msToTimeSpan telemetry.duration,
        success := telemetry.success, type := telemetry.dependencyTypeName,
        properties := telemetry.properties, id := telemetry.dependencyId } }

/-- `EnvelopeFactory.createEventData`. -/
def createEventData (telemetry : Telemetry) : DataRec :=
  { baseType := DataTypes.EVENT,
    baseData := .event
      { name := telemetry.name, properties := telemetry.properties,
        measurements := telemetry.measurements } }

/-- `EnvelopeFactory.createExceptionData`. -/
def createExceptionData (telemetry : Telemetry) : DataRec :=
  let parsedStack := parseStackAny telemetry.exception.stack
  let details : ExceptionDetails :=
    { message := telemetry.exception.message,
      typeName := telemetry.exception.name,
      parsedStack := parsedStack,
      hasFullStack := parsedStack.isSome &&
        (parsedStack.getD []).length > 0 }
  { baseType := DataTypes.EXCEPTION,
    baseData := .exception
      { properties := telemetry.properties,
        severityLevel := SeverityLevel.Error,
        measurements := telemetry.measurements,
        exceptions := [details] } }

/-- `EnvelopeFactory.createRequestData`. -/
def createRequestData (telemetry : Telemetry) : DataRec :=
  { baseType := DataTypes.REQUEST,
    baseData := .request
      { id := telemetry.id, name := telemetry.name, url := telemetry.url,
        source := telemetry.source,
        duration := msToTimeSpan telemetry.duration,
        responseCode := telemetry.resultCode, success := telemetry.success,
        properties := telemetry.properties } }

/-- `EnvelopeFactory.createMetricData`. -/
def createMetricData (telemetry : Telemetry) : DataRec :=
  let metric : DataPoint :=
    { count := (match telemetry.count with | .int n => n | .nan => 1),
      kind := 1,
      max := (if !telemetry.max.isNaN then telemetry.max else telemetry.value),
      min := (if !telemetry.min.isNaN then telemetry.min else telemetry.value),
      name := telemetry.name,
      stdDev := (if !telemetry.stdDev.isNaN then telemetry.stdDev else .int 0),
      value := telemetry.value }
  { baseType := DataTypes.METRIC,
    baseData := .metric
      { metrics := [metric], properties := telemetry.properties } }

/-- The assignment `newTags[k] = newTags[k] || v` used for the three
well-known correlation keys. -/
def fillIfFalsy (m : PropMap) (k v : String) : PropMap :=
  m.set k (jsOr (m.get k) v)

/-- `EnvelopeFactory.getTags`: copies the context tags, overlays the
per-call overrides, then fills the three well-known correlation keys
from the ambient correlation context when still unset (an empty string
counts as unset).  When a correlation context is active, `context.keys`
is dereferenced unconditionally, a `TypeError` when no context was
passed. -/
def getTags (correlationContext : Option CorrelationContext)
    (context : Option Context) (tagOverrides : Option PropMap) :
    Except JsError PropMap :=
  let newTags : PropMap := []
  let newTags :=
    match context with
    | some c => newTags.overlay c.tags
    | none => newTags
  let newTags :=
    match tagOverrides with
    | some o => newTags.overlay o
    | none => newTags
  match correlationContext with
  | none => .ok newTags
  | some cc =>
    match context with
    | none => .error (.typeError "Cannot read property keys of undefined")
    | some c =>
      let newTags := fillIfFalsy newTags c.keys.operationId cc.operation.id
      let newTags := fillIfFalsy newTags c.keys.operationName cc.operation.name
      let newTags :=
        fillIfFalsy newTags c.keys.operationParentId cc.operation.parentId
      .ok newTags

/-- The common-property merge of `createEnvelope`: when the body set no
properties the common bag is taken wholesale; otherwise each common key
is written only when the body value for it is falsy (absent or the empty
string). -/
def mergeCommonProperties (bodyProps : Option PropMap) (common : PropMap) :
    PropMap :=
  match bodyProps with
  | none => common
  | some props =>
    common.foldl (fun acc p =>
      if truthy (acc.get p.1) then acc else acc.set p.1 p.2) props

/-- A string property map embedded back into a JS value, as handed to
`Util.validateStringMap` by `createEnvelope`. -/
def propMapToJsVal (m : PropMap) : JsVal :=
  .vobj (m.map fun p => (p.1, .vstr p.2))

/-- Removal of every dash from the instrumentation key
(`iKey.replace` with a global dash pattern). -/
def removeDashes (s : String) : String :=
  String.mk (s.data.filter fun c => c ≠ '-')

/-- The `switch (telemetryType)` dispatch of `createEnvelope`: one pure
converter per recognized discriminator, a null body otherwise. -/
def dispatchData (telemetry : Telemetry) (telemetryType : String) :
    Option DataRec :=
  if telemetryType = DataTypes.MESSAGE then some (createTraceData telemetry)
  else if telemetryType = DataTypes.REMOTE_DEPENDENCY then
    some (createDependencyData telemetry)
  else if telemetryType = DataTypes.EVENT then
    some (createEventData telemetry)
  else if telemetryType = DataTypes.EXCEPTION then
    some (createExceptionData telemetry)
  else if telemetryType = DataTypes.REQUEST then
    some (createRequestData telemetry)
  else if telemetryType = DataTypes.METRIC then
    some (createMetricData telemetry)
  else none

/-- The instrumentation key read from the config: empty when no config
was passed or the key is falsy (`config ? config.instrumentationKey ||
"" : ""`). -/
def effectiveIKey (config : Option Config) : String :=
  match config with
  | some c => if c.instrumentationKey = "" then "" else c.instrumentationKey
  | none => ""

/-- `EnvelopeFactory.createEnvelope`.  The dispatch leaves `data` null
for an unrecognized type; the common-properties block and the envelope
name computation then dereference the null `data`, modelled as a
`TypeError`.  The ambient correlation context and the wall-clock
timestamp are explicit arguments. -/
def createEnvelope (telemetry : Telemetry) (telemetryType : String)
    (commonProperties : Option PropMap) (context : Option Context)
    (config : Option Config)
    (correlationContext : Option CorrelationContext) (now : String) :
    Except JsError Envelope :=
  let data : Option DataRec := dispatchData telemetry telemetryType
  let step : Except JsError (Option DataRec) :=
    match commonProperties with
    | none => .ok data
    | some cp =>
      match data with
      | none => .error (.typeError "Cannot read property baseData of null")
      | some d =>
        if domainSupportsProperties d.baseData then
          let merged := mergeCommonProperties d.baseData.properties cp
          let sanitized := validateStringMap (propMapToJsVal merged)
          .ok (some { d with baseData := d.baseData.setProperties sanitized })
        else .ok (some d)
  match step with
  | .error e => .error e
  | .ok data =>
    let iKey := effectiveIKey config
    match data with
    | none => .error (.typeError "Cannot read property baseType of null")
    | some d =>
      match getTags correlationContext context telemetry.tagOverrides with
      | .error e => .error e
      | .ok tags =>
        .ok { data := some d, iKey := iKey,
              name := "Microsoft.ApplicationInsights." ++ removeDashes iKey ++
                "." ++ strTake d.baseType (d.baseType.length - 4),
              tags := tags, time := now, ver := 1,
              sampleRate :=
                match config with
                | some c => c.samplingPercentage
                | none => 100 }

/-- The part of a synthetic frame line after the opening parenthesis:
`n` copies of `a` (the file name) followed by `:1:2)`. -/
def frameTail (n : Nat) : List Char :=
  List.replicate n 'a' ++ ':' :: '1' :: ':' :: '2' :: [')']

/-- A frame line of the shape two blanks, `at f (`, `n` copies of `a`,
`:1:2)` — a valid frame whose file-name capture is the run of `a`
characters, so its `sizeInBytes` grows as twice `n`. -/
def lineChars (n : Nat) : List Char :=
  ' ' :: ' ' :: 'a' :: 't' :: ' ' :: 'f' :: ' ' :: '(' :: frameTail n

/-- A three-line stack whose outer frames are small (74 bytes each) and
whose middle frame weighs 2 times 16300 plus 72 = 32672 bytes: the total
32820 exceeds the 32 KiB threshold, yet the symmetric scan consumes only
the two outer frames (148 bytes) before the pointers meet, so nothing is
removed. -/
def bigStackC1 : List Char :=
  "  at g (b:1:2)".data ++ '\n' ::
    (lineChars 16300 ++ '\n' :: "  at h (c:3:4)".data)

/-- A seven-line stack of equal 6000-byte frames (total 42000): the scan
accepts the outer pairs (12000, then 24000), oversteps at 36000, and
splices out the middle five frames. -/
def witStackC1 : List Char :=
  lineChars 2964 ++ '\n' :: (lineChars 2964 ++ '\n' :: (lineChars 2964 ++
    '\n' :: (lineChars 2964 ++ '\n' :: (lineChars 2964 ++ '\n' ::
      (lineChars 2964 ++ '\n' :: lineChars 2964)))))

/-- The frame `lineChars n` parses to, at frame counter `level`: method
`f`, file name the run of `a` characters, line 1; its size is twice
`n - 1` plus 74 when the level prints as one digit. -/
def lineFrame (n level : Nat) : StackFrame :=
  ⟨level, ['f'], 'a' :: 't' :: ' ' :: 'f' :: ' ' :: '(' :: frameTail n,
    List.replicate n 'a', 1, 2 * (n - 1) + 74⟩

/-- The three frames `bigStackC1` parses to (sizes 74, 32672, 74). -/
def bigFramesC1 : List StackFrame :=
  [⟨0, ['g'], "at g (b:1:2)".data, ['b'], 1, 74⟩, lineFrame 16300 1,
   ⟨2, ['h'], "at h (c:3:4)".data, ['c'], 3, 74⟩]

/-- The seven frames `witStackC1` parses to (6000 bytes each). -/
def witFramesC1 : List StackFrame :=
  [lineFrame 2964 0, lineFrame 2964 1, lineFrame 2964 2, lineFrame 2964 3,
   lineFrame 2964 4, lineFrame 2964 5, lineFrame 2964 6]

/-- A telemetry record with every field at its default (used as the
concrete record in counterexamples and witnesses). -/
def sampleTelemetry : Telemetry := {}

/-- The tag-resolution rule as the spec states it: the override value
when present, else the context default; and, when a correlation context
is active, each of the three well-known keys is resolved to the merged
value when that value is truthy and to the ambient operation value
otherwise. -/
def tagLookupSpec (cc : Option CorrelationContext) (c : Context)
    (ov : Option PropMap) (k : String) : Option String :=
  let base : Option String :=
    match ov with
    | some o =>
      (match PropMap.get o k with
       | some v => some v
       | none => PropMap.get c.tags k)
    | none => PropMap.get c.tags k
  match cc with
  | none => base
  | some ctx =>
    if k = c.keys.operationId then some (jsOr base ctx.operation.id)
    else if k = c.keys.operationName then some (jsOr base ctx.operation.name)
    else if k = c.keys.operationParentId then
      some (jsOr base ctx.operation.parentId)
    else base

/-! ## Lemmas about `PropMap` operations -/

theorem PropMap.get_map_set_ne (k v k' : String) (h : k' ≠ k) (m : PropMap) :
    PropMap.get (m.map fun p => if p.1 = k then (k, v) else p) k' =
      PropMap.get m k' := by
  induction m with
  | nil => rfl
  | cons p ps ih =>
    by_cases hp : p.1 = k
    · simp only [List.map_cons, if_pos hp, PropMap.get]
      have hkk : ¬ (k = k') := fun hh => h hh.symm
      rw [if_neg hkk, if_neg (hp ▸ hkk)]
      exact ih
    · simp only [List.map_cons, if_neg hp, PropMap.get]
      by_cases hk : p.1 = k'
      · rw [if_pos hk, if_pos hk]
      · rw [if_neg hk, if_neg hk]
        exact ih

theorem PropMap.get_append_ne (k v k' : String) (h : k' ≠ k) (m : PropMap) :
    PropMap.get (m ++ [(k, v)]) k' = PropMap.get m k' := by
  induction m with
  | nil =>
    simp only [List.nil_append, PropMap.get]
    rw [if_neg (fun hh => h hh.symm)]
  | cons p ps ih =>
    simp only [List.cons_append, PropMap.get]
    by_cases hk : p.1 = k'
    · rw [if_pos hk, if_pos hk]
    · rw [if_neg hk, if_neg hk]
      exact ih

/-- Reading the key just written yields the written value. -/
theorem PropMap.get_set_self (m : PropMap) (k v : String) :
    PropMap.get (m.set k v) k = some v := by
  unfold PropMap.set
  by_cases h : m.any (fun p => p.1 = k)
  · rw [if_pos h]
    induction m with
    | nil => simp at h
    | cons p ps ih =>
      by_cases hp : p.1 = k
      · subst hp
        simp [PropMap.get]
      · simp only [List.any_cons, hp] at h
        simp only [List.map_cons, if_neg hp, PropMap.get, if_neg hp]
        exact ih (by simpa using h)
  · rw [if_neg h]
    induction m with
    | nil => simp [PropMap.get]
    | cons p ps ih =>
      simp only [List.any_cons, Bool.or_eq_true, not_or] at h
      have hp : ¬ p.1 = k := by simpa using h.1
      simp only [List.cons_append, PropMap.get, if_neg hp]
      exact ih (by simpa using h.2)

/-- Writing one key does not change the value read at another. -/
theorem PropMap.get_set_ne (m : PropMap) (k v k' : String) (h : k' ≠ k) :
    PropMap.get (m.set k v) k' = PropMap.get m k' := by
  unfold PropMap.set
  by_cases hany : m.any (fun p => p.1 = k)
  · rw [if_pos hany]; exact PropMap.get_map_set_ne k v k' h m
  · rw [if_neg hany]; exact PropMap.get_append_ne k v k' h m

/-- A key outside the key set reads as absent. -/
theorem PropMap.get_eq_none (k : String) (m : PropMap)
    (h : k ∉ m.map Prod.fst) : PropMap.get m k = none := by
  induction m with
  | nil => rfl
  | cons p ps ih =>
    simp only [List.map_cons, List.mem_cons, not_or] at h
    simp only [PropMap.get, if_neg (fun hh : p.1 = k => h.1 hh.symm)]
    exact ih h.2

/-- Reading an overlay: an entry of `b` (whose keys do not repeat) wins,
otherwise the base map answers. -/
theorem PropMap.get_overlay (k : String) (b : PropMap) :
    ∀ a : PropMap, (b.map Prod.fst).Nodup →
      PropMap.get (a.overlay b) k =
        match PropMap.get b k with
        | some v => some v
        | none => PropMap.get a k := by
  induction b with
  | nil => intro a _; simp [PropMap.get, PropMap.overlay]
  | cons p t ih =>
    intro a h
    simp only [List.map_cons, List.nodup_cons] at h
    have step : (a.overlay (p :: t)) = ((a.set p.1 p.2).overlay t) := rfl
    rw [step, ih (a.set p.1 p.2) h.2]
    by_cases hk : p.1 = k
    · subst hk
      rw [PropMap.get_eq_none p.1 t h.1]
      have hq : PropMap.get (p :: t) p.1 = some p.2 := by simp [PropMap.get]
      rw [hq]
      exact PropMap.get_set_self a p.1 p.2
    · have hq2 : PropMap.get (p :: t) k = PropMap.get t k := by
        simp [PropMap.get, hk]
      rw [hq2]
      have hset := PropMap.get_set_ne a p.1 p.2 k (fun hh => hk hh.symm)
      cases PropMap.get t k with
      | none => exact hset
      | some v => rfl

/-- The fold of the common-properties loop, characterised pointwise. -/
theorem mergeFold_get (k : String) (common : PropMap) :
    ∀ acc : PropMap, (common.map Prod.fst).Nodup →
      PropMap.get (common.foldl (fun acc p =>
          if truthy (PropMap.get acc p.1) then acc else acc.set p.1 p.2) acc) k =
        match PropMap.get common k with
        | some v =>
          if truthy (PropMap.get acc k) then PropMap.get acc k else some v
        | none => PropMap.get acc k := by
  induction common with
  | nil => intro acc _; simp [PropMap.get]
  | cons q t ih =>
    intro acc h
    simp only [List.map_cons, List.nodup_cons] at h
    rw [List.foldl_cons, ih _ h.2]
    by_cases hk : q.1 = k
    · subst hk
      rw [PropMap.get_eq_none q.1 t h.1]
      have hq : PropMap.get (q :: t) q.1 = some q.2 := by simp [PropMap.get]
      rw [hq]
      show PropMap.get
          (if truthy (PropMap.get acc q.1) then acc else acc.set q.1 q.2) q.1 =
        if truthy (PropMap.get acc q.1) then PropMap.get acc q.1 else some q.2
      by_cases ht : truthy (PropMap.get acc q.1)
      · rw [if_pos ht, if_pos ht]
      · rw [if_neg ht, if_neg ht, PropMap.get_set_self]
    · have hq2 : PropMap.get (q :: t) k = PropMap.get t k := by
        simp [PropMap.get, hk]
      rw [hq2]
      have hacc : PropMap.get
          (if truthy (PropMap.get acc q.1) then acc else acc.set q.1 q.2) k
          = PropMap.get acc k := by
        by_cases ht : truthy (PropMap.get acc q.1)
        · rw [if_pos ht]
        · rw [if_neg ht]
          exact PropMap.get_set_ne acc q.1 q.2 k (fun hh => hk hh.symm)
      cases PropMap.get t k with
      | none => exact hacc
      | some v => show (if truthy _ then _ else _) = _; rw [hacc]

/-! ## Claim C5: the common-property merge -/

/-- C5, counterexample: the claim says a key already present on the body
is never overwritten, but a key present with the empty-string value is
falsy and the merge loop does overwrite it: body `a = ""` merged with
common `a = "2"` yields `a = "2"`, not `a = ""`. -/
theorem claim_C5_counterexample :
    PropMap.get (mergeCommonProperties (some [("a", "")]) [("a", "2")]) "a" =
      some "2" ∧ (some "2" : Option String) ≠ some "" := by
  constructor
  · rfl
  · decide

/-- C5, amended: when the body has no properties the common bag is taken
wholesale; otherwise a common entry is written exactly when the body
value for its key is falsy (absent or the empty string) — a key with a
truthy (nonempty) value is never overwritten; in particular body
`a = "1"` merged with common `a = "2", b = "3"` yields
`a = "1", b = "3"`. -/
theorem claim_C5_amended (props common : PropMap) (k : String)
    (hnodup : (common.map Prod.fst).Nodup) :
    mergeCommonProperties none common = common ∧
    PropMap.get (mergeCommonProperties (some props) common) k =
      (if truthy (PropMap.get props k) then PropMap.get props k
       else
        match PropMap.get common k with
        | some v => some v
        | none => PropMap.get props k) ∧
    mergeCommonProperties (some [("a", "1")]) [("a", "2"), ("b", "3")] =
      [("a", "1"), ("b", "3")] := by
  refine ⟨rfl, ?_, by rfl⟩
  show PropMap.get (common.foldl (fun acc p =>
      if truthy (PropMap.get acc p.1) then acc else acc.set p.1 p.2) props) k = _
  rw [mergeFold_get k common props hnodup]
  by_cases ht : truthy (PropMap.get props k)
  · cases PropMap.get common k with
    | none => simp [ht]
    | some v => simp [ht]
  · cases PropMap.get common k with
    | none => simp [ht]
    | some v => simp [ht]

/-- C5, witness: the amended characterisation at the concrete example of
the claim. -/
theorem claim_C5_witness :
    mergeCommonProperties (some [("a", "1")]) [("a", "2"), ("b", "3")] =
      [("a", "1"), ("b", "3")] :=
  (claim_C5_amended [("a", "1")] [("a", "2"), ("b", "3")] "a" (by decide)).2.2

/-! ## Claim C3: domain exclusion -/

theorem excludedDomainsLoop_eq_all (host : List Char) (hne : host ≠ [])
    (pats : List (List Char)) :
    excludedDomainsLoop (some host) pats =
      pats.all fun p => !regexTest (compilePattern p) host := by
  induction pats with
  | nil => rfl
  | cons p ps ih =>
    show (if host.isEmpty then false
      else if regexTest (compilePattern p) host then false
      else excludedDomainsLoop (some host) ps) = _
    rw [if_neg (by simpa [List.isEmpty_iff] using hne)]
    by_cases hr : regexTest (compilePattern p) host
    · simp [hr]
    · simp [hr, ih]

/-- C3: with the single exclusion pattern star-dot-excluded-dot-com, the
check excludes the hostname api.excluded.com and does not exclude
excluded.com.evil.org; in general (for a nonempty parsed hostname) each
pattern is matched per the unescaped-dot translation — the star a
wildcard, the dot any character — and any pattern matching anywhere in
the hostname excludes the header. -/
theorem claim_C3 :
    canIncludeCorrelationHeader ["*.excluded.com".data]
      (some "api.excluded.com".data) = false ∧
    canIncludeCorrelationHeader ["*.excluded.com".data]
      (some "excluded.com.evil.org".data) = true ∧
    ∀ (pats : List (List Char)) (host : List Char), host ≠ [] →
      canIncludeCorrelationHeader pats (some host) =
        pats.all fun p => !regexTest (compilePattern p) host := by
  refine ⟨by decide, by decide, fun pats host hne => ?_⟩
  unfold canIncludeCorrelationHeader
  cases pats with
  | nil => rfl
  | cons p ps =>
    rw [if_neg (by simp)]
    exact excludedDomainsLoop_eq_all host hne (p :: ps)

/-- C3, witness: the general matching clause evaluated at the concrete
pattern and hostname of the claim. -/
theorem claim_C3_witness :
    canIncludeCorrelationHeader ["*.excluded.com".data]
      (some "api.excluded.com".data) =
      ["*.excluded.com".data].all
        (fun p => !regexTest (compilePattern p) "api.excluded.com".data) :=
  claim_C3.2.2 ["*.excluded.com".data] "api.excluded.com".data (by decide)

/-! ## Claim C4: duration formatting -/

theorem dropLast4_of_append (B : List Char) :
    ((B ++ ['0', '0', '0', '0']).take
      ((B ++ ['0', '0', '0', '0']).length -
        min 4 (((B ++ ['0', '0', '0', '0']).reverse.takeWhile
          (fun c => c = '0')).length))) = B := by
  have h1 : (B ++ ['0', '0', '0', '0']).reverse =
      '0' :: '0' :: '0' :: '0' :: B.reverse := by
    rw [List.reverse_append]; rfl
  rw [h1]
  have h2 : (('0' :: '0' :: '0' :: '0' :: B.reverse).takeWhile
      (fun c => c = '0')) =
      '0' :: '0' :: '0' :: '0' :: B.reverse.takeWhile (fun c => c = '0') := by
    simp [List.takeWhile_cons]
  rw [h2]
  have h3 : min 4
      ('0' :: '0' :: '0' :: '0' :: B.reverse.takeWhile
        (fun c => c = '0')).length = 4 := by
    simp only [List.length_cons]
    omega
  rw [h3]
  have h4 : (B ++ ['0', '0', '0', '0']).length - 4 = B.length := by
    simp only [List.length_append, List.length_cons, List.length_nil]
    omega
  rw [h4, List.take_left]

/-- The trailing-zero trim of the 7-digit fixed rendering keeps exactly
the three millisecond digits. -/
theorem drop4_secToFixed7 (ms : Nat) :
    dropAtMost4TrailingZeros (secToFixed7 ms) =
      Nat.repr (ms % 60000 / 1000) ++ "." ++ pad3 (ms % 1000) := by
  have hdot : (".".data : List Char) = ['.'] := rfl
  have hz : ("0000".data : List Char) = ['0', '0', '0', '0'] := rfl
  have hB : (secToFixed7 ms).data =
      (((Nat.repr (ms % 60000 / 1000)).data ++ ['.']) ++
        (pad3 (ms % 1000)).data) ++ ['0', '0', '0', '0'] := by
    show (Nat.repr (ms % 60000 / 1000) ++ "." ++ pad3 (ms % 1000) ++
      "0000").data = _
    rw [String.data_append, String.data_append, String.data_append, hdot, hz]
  apply String.ext
  show ((secToFixed7 ms).data.take
      ((secToFixed7 ms).data.length -
        min 4 (((secToFixed7 ms).data.reverse.takeWhile
          (fun c => c = '0')).length))) = _
  rw [hB, dropLast4_of_append]
  rw [String.data_append, String.data_append, hdot]

/-- C4, counterexample: the claim maps 0 ms to a string with no
fractional part, but the source trims at most four of the seven
fractional zeros, leaving three; 0 ms formats as 00:00:00.000. -/
theorem claim_C4_counterexample :
    msToTimeSpan (.int 0) ≠ "00:00:00" := by
  decide

/-- C4, amended: 0 ms formats as 00:00:00.000, 90000 ms as 00:01:30.000
and 90000000 ms as 1.01:00:00.000; negative and NaN inputs format as 0;
only four of the seven fractional zeros are trimmed, so the fractional
part is exactly the three millisecond digits; the day segment is omitted
exactly when the day count is zero, otherwise it leads the string. -/
theorem claim_C4_amended :
    msToTimeSpan (.int 0) = "00:00:00.000" ∧
    msToTimeSpan (.int 90000) = "00:01:30.000" ∧
    msToTimeSpan (.int 90000000) = "1.01:00:00.000" ∧
    (∀ n : Int, n < 0 → msToTimeSpan (.int n) = msToTimeSpan (.int 0)) ∧
    msToTimeSpan .nan = msToTimeSpan (.int 0) ∧
    (∀ n : Nat, ∃ p : String,
      msToTimeSpan (.int (n : Int)) = p ++ "." ++ pad3 (n % 1000)) ∧
    (∀ n : Nat, n < 86400000 →
      msToTimeSpan (.int (n : Int)) =
        hourPart n ++ ":" ++ minPart n ++ ":" ++ secPart n) ∧
    (∀ n : Nat, 86400000 ≤ n →
      msToTimeSpan (.int (n : Int)) =
        Nat.repr (n / 86400000) ++ "." ++
          (hourPart n ++ ":" ++ minPart n ++ ":" ++ secPart n)) := by
  have hnat : ∀ n : Nat, msToTimeSpan (.int (n : Int)) = msToTimeSpanOfMs n := by
    intro n
    show msToTimeSpanOfMs (if ((n : Int) < 0) then 0 else Int.toNat (n : Int)) = _
    rw [if_neg (Int.not_lt.mpr (Int.natCast_nonneg n)), Int.toNat_natCast]
  have hshape : ∀ n : Nat, msToTimeSpanOfMs n =
      (if n / 86400000 > 0 then Nat.repr (n / 86400000) ++ "." else "") ++
        hourPart n ++ ":" ++ minPart n ++ ":" ++ secPart n := fun _ => rfl
  refine ⟨by decide, by decide, by decide, ?_, by decide, ?_, ?_, ?_⟩
  · intro n h
    show msToTimeSpanOfMs (if (n < 0) then 0 else n.toNat) = _
    rw [if_pos h]
    decide
  · intro n
    rw [hnat n, hshape n]
    by_cases hd : n / 86400000 > 0
    · rw [if_pos hd]
      by_cases hidx : idxOfDot (dropAtMost4TrailingZeros (secToFixed7 n)) < 2
      · refine ⟨(Nat.repr (n / 86400000) ++ ".") ++ hourPart n ++ ":" ++
          minPart n ++ ":" ++ ("0" ++ Nat.repr (n % 60000 / 1000)), ?_⟩
        show _ ++ secPart n = _
        unfold secPart
        rw [drop4_secToFixed7 n, if_pos (by rwa [drop4_secToFixed7 n] at hidx)]
        apply String.ext
        simp [String.data_append, List.append_assoc]
      · refine ⟨(Nat.repr (n / 86400000) ++ ".") ++ hourPart n ++ ":" ++
          minPart n ++ ":" ++ Nat.repr (n % 60000 / 1000), ?_⟩
        show _ ++ secPart n = _
        unfold secPart
        rw [drop4_secToFixed7 n, if_neg (by rwa [drop4_secToFixed7 n] at hidx)]
        apply String.ext
        simp [String.data_append, List.append_assoc]
    · rw [if_neg hd]
      by_cases hidx : idxOfDot (dropAtMost4TrailingZeros (secToFixed7 n)) < 2
      · refine ⟨"" ++ hourPart n ++ ":" ++ minPart n ++ ":" ++
          ("0" ++ Nat.repr (n % 60000 / 1000)), ?_⟩
        show _ ++ secPart n = _
        unfold secPart
        rw [drop4_secToFixed7 n, if_pos (by rwa [drop4_secToFixed7 n] at hidx)]
        apply String.ext
        simp [String.data_append, List.append_assoc]
      · refine ⟨"" ++ hourPart n ++ ":" ++ minPart n ++ ":" ++
          Nat.repr (n % 60000 / 1000), ?_⟩
        show _ ++ secPart n = _
        unfold secPart
        rw [drop4_secToFixed7 n, if_neg (by rwa [drop4_secToFixed7 n] at hidx)]
        apply String.ext
        simp [String.data_append, List.append_assoc]
  · intro n h
    rw [hnat n, hshape n, if_neg (by simp [Nat.div_eq_of_lt h])]
    apply String.ext
    simp [String.data_append]
  · intro n h
    rw [hnat n, hshape n, if_pos (Nat.div_pos h (by norm_num))]
    apply String.ext
    simp [String.data_append, List.append_assoc]

/-- C4, witness: the negative-input and day-prefix clauses of the
amended statement at concrete inputs. -/
theorem claim_C4_witness :
    msToTimeSpan (.int (-5)) = msToTimeSpan (.int 0) ∧
    msToTimeSpan (.int (90061234 : Nat)) =
      Nat.repr (90061234 / 86400000) ++ "." ++
        (hourPart 90061234 ++ ":" ++ minPart 90061234 ++ ":" ++
          secPart 90061234) :=
  ⟨claim_C4_amended.2.2.2.1 (-5) (by decide),
   claim_C4_amended.2.2.2.2.2.2.2 90061234 (by decide)⟩

/-! ## Claim C6: correlation header merge -/

theorem splitOnChar_ne_nil (sep : Char) (l : List Char) :
    ∃ t ts, splitOnChar sep l = t :: ts := by
  induction l with
  | nil => exact ⟨[], [], rfl⟩
  | cons c cs ih =>
    obtain ⟨t, ts, h⟩ := ih
    by_cases hc : c = sep
    · exact ⟨[], splitOnChar sep cs, by simp [splitOnChar, hc]⟩
    · exact ⟨c :: t, ts, by simp [splitOnChar, hc, h]⟩

theorem splitOnChar_append (sep : Char) (b : List Char) :
    ∀ a : List Char, splitOnChar sep (a ++ sep :: b) =
      splitOnChar sep a ++ splitOnChar sep b := by
  intro a
  induction a with
  | nil => simp [splitOnChar]
  | cons c a' ih =>
    have hstep : (c :: a') ++ sep :: b = c :: (a' ++ sep :: b) := rfl
    rw [hstep]
    by_cases hc : c = sep
    · have e1 : splitOnChar sep (c :: (a' ++ sep :: b)) =
          [] :: splitOnChar sep (a' ++ sep :: b) := by
        simp [splitOnChar, hc]
      have e2 : splitOnChar sep (c :: a') = [] :: splitOnChar sep a' := by
        simp [splitOnChar, hc]
      rw [e1, e2, ih, List.cons_append]
    · obtain ⟨t, ts, h⟩ := splitOnChar_ne_nil sep a'
      have e1 : splitOnChar sep (c :: (a' ++ sep :: b)) =
          match splitOnChar sep (a' ++ sep :: b) with
          | t :: ts => (c :: t) :: ts
          | [] => [[c]] := by
        simp [splitOnChar, hc]
      have e3 : splitOnChar sep (c :: a') = (c :: t) :: ts := by
        simp [splitOnChar, hc, h]
      rw [e1, ih, h, e3, List.cons_append, List.cons_append]

theorem splitOnChar_of_not_mem (sep : Char) (s : List Char)
    (h : sep ∉ s) : splitOnChar sep s = [s] := by
  induction s with
  | nil => rfl
  | cons c cs ih =>
    simp only [List.mem_cons, not_or] at h
    have hc : ¬ c = sep := fun hh => h.1 hh.symm
    simp [splitOnChar, hc, ih h.2]

theorem isPrefixOf_append_self (k t : List Char) :
    k.isPrefixOf (k ++ t) = true := by
  induction k with
  | nil => simp
  | cons c cs ih => simp [List.isPrefixOf_cons₂, ih]

theorem splitOnChar_head_of_not_mem (sep : Char) (k : List Char)
    (hk : sep ∉ k) (r : List Char) :
    ∃ t ts, splitOnChar sep (k ++ r) = (k ++ t) :: ts := by
  induction k with
  | nil =>
    obtain ⟨t, ts, h⟩ := splitOnChar_ne_nil sep r
    exact ⟨t, ts, by simpa using h⟩
  | cons c k' ih =>
    simp only [List.mem_cons, not_or] at hk
    have hc : ¬ c = sep := fun hh => hk.1 hh.symm
    obtain ⟨t, ts, h⟩ := ih hk.2
    refine ⟨t, ts, ?_⟩
    simp [splitOnChar, hc, h]

/-- C6: when some comma-separated component of the header already starts
with the reserved source-identity key, the header is left unchanged;
otherwise (for a comma-free key and correlation id) exactly one
component carrying the key is appended; and the operation is idempotent,
so re-applying it to its own output never yields a second source-key
component. -/
theorem claim_C6 (srcKey correlationId header : List Char)
    (hk : ',' ∉ srcKey) :
    ((splitOnComma header).any
        (fun c => (srcKey ++ ['=']).isPrefixOf c) = true →
      addCorrelationIdHeaderFromString srcKey correlationId header =
        header) ∧
    ((splitOnComma header).any
        (fun c => (srcKey ++ ['=']).isPrefixOf c) = false →
      ',' ∉ correlationId →
      (splitOnComma
          (addCorrelationIdHeaderFromString srcKey correlationId
            header)).countP
        (fun c => (srcKey ++ ['=']).isPrefixOf c) = 1) ∧
    addCorrelationIdHeaderFromString srcKey correlationId
        (addCorrelationIdHeaderFromString srcKey correlationId header) =
      addCorrelationIdHeaderFromString srcKey correlationId header := by
  have happ : header ++ [','] ++ srcKey ++ ['='] ++ correlationId =
      header ++ ',' :: (srcKey ++ ['='] ++ correlationId) := by
    simp [List.append_assoc]
  refine ⟨?_, ?_, ?_⟩
  · intro hfound
    unfold addCorrelationIdHeaderFromString
    rw [if_pos hfound]
  · intro hfound hcid
    unfold addCorrelationIdHeaderFromString
    rw [if_neg (by simp [hfound]), happ, splitOnComma,
      splitOnChar_append, List.countP_append]
    have h0 : (splitOnChar ',' header).countP
        (fun c => (srcKey ++ ['=']).isPrefixOf c) = 0 := by
      rw [List.countP_eq_zero]
      intro a ha
      exact List.any_eq_false.mp
        (by simpa [splitOnComma] using hfound) a ha
    have hnc : ',' ∉ srcKey ++ ['='] ++ correlationId := by
      simp only [List.append_assoc, List.mem_append, List.mem_cons,
        List.mem_singleton, not_or]
      exact ⟨hk, by decide, hcid⟩
    rw [h0, splitOnChar_of_not_mem ',' _ hnc]
    have hpre : (srcKey ++ ['=']).isPrefixOf
        (srcKey ++ ['='] ++ correlationId) = true :=
      isPrefixOf_append_self (srcKey ++ ['=']) correlationId
    simp [List.countP_cons, hpre]
  · by_cases hfound : (splitOnComma header).any
        (fun c => (srcKey ++ ['=']).isPrefixOf c) = true
    · have h1 : addCorrelationIdHeaderFromString srcKey correlationId header =
          header := by
        unfold addCorrelationIdHeaderFromString
        rw [if_pos hfound]
      rw [h1, h1]
    · have h1 : addCorrelationIdHeaderFromString srcKey correlationId header =
          header ++ ',' :: (srcKey ++ ['='] ++ correlationId) := by
        unfold addCorrelationIdHeaderFromString
        rw [if_neg hfound, happ]
      rw [h1]
      have hkk : ',' ∉ srcKey ++ ['='] := by
        simp only [List.mem_append, List.mem_singleton, not_or]
        exact ⟨hk, by decide⟩
      obtain ⟨t, ts, hsplit⟩ := splitOnChar_head_of_not_mem ','
        (srcKey ++ ['=']) hkk correlationId
      have hfound2 : (splitOnComma
          (header ++ ',' :: (srcKey ++ ['='] ++ correlationId))).any
          (fun c => (srcKey ++ ['=']).isPrefixOf c) = true := by
        rw [splitOnComma, splitOnChar_append, List.any_append]
        have : splitOnChar ',' (srcKey ++ ['='] ++ correlationId) =
            ((srcKey ++ ['=']) ++ t) :: ts := by
          rw [List.append_assoc] at hsplit ⊢
          exact hsplit
        rw [this]
        simp [isPrefixOf_append_self]
      unfold addCorrelationIdHeaderFromString
      rw [if_pos hfound2]

/-- C6, witness: appending to a key-free header then re-applying the
merge leaves the appended header unchanged. -/
theorem claim_C6_witness :
    addCorrelationIdHeaderFromString "appId".data "CID".data
        (addCorrelationIdHeaderFromString "appId".data "CID".data
          "foo=bar".data) =
      addCorrelationIdHeaderFromString "appId".data "CID".data
        "foo=bar".data :=
  (claim_C6 "appId".data "CID".data "foo=bar".data (by decide)).2.2

/-! ## Claim C8: property value truncation -/

theorem PropMap.mem_set (m : PropMap) (k v : String) (kv : String × String)
    (h : kv ∈ m.set k v) : kv = (k, v) ∨ kv ∈ m := by
  unfold PropMap.set at h
  by_cases hany : m.any (fun p => p.1 = k)
  · rw [if_pos hany] at h
    obtain ⟨p, hp, hpe⟩ := List.mem_map.mp h
    by_cases hk : p.1 = k
    · rw [if_pos hk] at hpe
      exact Or.inl hpe.symm
    · rw [if_neg hk] at hpe
      exact Or.inr (hpe ▸ hp)
  · rw [if_neg hany] at h
    rcases List.mem_append.mp h with h1 | h1
    · exact Or.inr h1
    · exact Or.inl (List.mem_singleton.mp h1)

theorem validateFold_bound (fs : List (String × JsVal)) :
    ∀ acc : PropMap,
      (∀ kv ∈ acc, kv.2.length ≤ MAX_PROPERTY_LENGTH) →
      ∀ kv ∈ fs.foldl (fun m p =>
          match sanitizeValue p.2 with
          | none => m
          | some s => m.set p.1 (strTake s MAX_PROPERTY_LENGTH)) acc,
        kv.2.length ≤ MAX_PROPERTY_LENGTH := by
  induction fs with
  | nil => intro acc hacc kv hkv; exact hacc kv hkv
  | cons p fs ih =>
    intro acc hacc kv hkv
    rw [List.foldl_cons] at hkv
    refine ih _ ?_ kv hkv
    intro q hq
    cases hs : sanitizeValue p.2 with
    | none => rw [hs] at hq; exact hacc q hq
    | some s =>
      rw [hs] at hq
      rcases PropMap.mem_set _ _ _ q hq with he | hm
      · rw [he]
        show (strTake s MAX_PROPERTY_LENGTH).length ≤ MAX_PROPERTY_LENGTH
        show (s.data.take MAX_PROPERTY_LENGTH).length ≤ MAX_PROPERTY_LENGTH
        rw [List.length_take]
        exact Nat.min_le_left _ _
      · exact hacc q hm

/-- C8: every value of a map returned by the property sanitizer is at
most 8192 characters long, and a string value longer than 8192
characters is truncated to exactly the first 8192 characters. -/
theorem claim_C8 :
    (∀ (obj : JsVal) (m : PropMap), validateStringMap obj = some m →
      ∀ kv ∈ m, kv.2.length ≤ MAX_PROPERTY_LENGTH) ∧
    (∀ (k s : String), MAX_PROPERTY_LENGTH < s.length →
      validateStringMap (.vobj [(k, .vstr s)]) =
        some [(k, strTake s MAX_PROPERTY_LENGTH)] ∧
      (strTake s MAX_PROPERTY_LENGTH).length = MAX_PROPERTY_LENGTH) := by
  constructor
  · intro obj m hm kv hkv
    unfold validateStringMap at hm
    by_cases hobj : jsTypeof obj ≠ "object"
    · rw [if_pos hobj] at hm; exact absurd hm (by simp)
    · rw [if_neg hobj] at hm
      have hm2 := Option.some.inj hm
      rw [← hm2] at hkv
      exact validateFold_bound (jsFields obj) [] (by simp) kv hkv
  · intro k s h
    constructor
    · show (if jsTypeof (.vobj [(k, JsVal.vstr s)]) ≠ "object" then none
        else _) = _
      rw [if_neg (by simp [jsTypeof])]
      show some ([(k, JsVal.vstr s)].foldl _ []) = _
      rw [List.foldl_cons, List.foldl_nil]
      show some (match sanitizeValue (.vstr s) with
        | none => ([] : PropMap)
        | some s' => PropMap.set [] k (strTake s' MAX_PROPERTY_LENGTH)) = _
      have hs : sanitizeValue (.vstr s) = some s := rfl
      rw [hs]
      show some (PropMap.set [] k _) = _
      unfold PropMap.set
      rw [if_neg (by simp)]
      rfl
    · show (s.data.take MAX_PROPERTY_LENGTH).length = MAX_PROPERTY_LENGTH
      rw [List.length_take]
      exact Nat.min_eq_left (Nat.le_of_lt h)

/-- C8, witness: an 8193-character value is truncated to exactly 8192
characters. -/
theorem claim_C8_witness :
    validateStringMap
        (.vobj [("a", .vstr (String.mk (List.replicate 8193 'x')))]) =
      some [("a", strTake (String.mk (List.replicate 8193 'x'))
        MAX_PROPERTY_LENGTH)] ∧
    (strTake (String.mk (List.replicate 8193 'x'))
      MAX_PROPERTY_LENGTH).length = MAX_PROPERTY_LENGTH :=
  claim_C8.2 "a" (String.mk (List.replicate 8193 'x'))
    (by rw [String.length_mk, List.length_replicate]; decide)

/-! ## Claim C9: tag resolution -/

theorem baseNone_get (c : Context) (htags : (c.tags.map Prod.fst).Nodup)
    (k : String) :
    PropMap.get (PropMap.overlay [] c.tags) k = PropMap.get c.tags k := by
  rw [PropMap.get_overlay k c.tags [] htags]
  cases PropMap.get c.tags k <;> rfl

theorem baseSome_get (c : Context) (o : PropMap)
    (htags : (c.tags.map Prod.fst).Nodup)
    (hno : (o.map Prod.fst).Nodup) (k : String) :
    PropMap.get ((PropMap.overlay [] c.tags).overlay o) k =
      (match PropMap.get o k with
       | some v => some v
       | none => PropMap.get c.tags k) := by
  rw [PropMap.get_overlay k o _ hno]
  cases PropMap.get o k with
  | none => exact baseNone_get c htags k
  | some v => rfl

theorem fillThree_get (base : PropMap) (c : Context)
    (ctx : CorrelationContext)
    (h12 : c.keys.operationId ≠ c.keys.operationName)
    (h13 : c.keys.operationId ≠ c.keys.operationParentId)
    (h23 : c.keys.operationName ≠ c.keys.operationParentId) (k : String) :
    PropMap.get (fillIfFalsy (fillIfFalsy (fillIfFalsy base
        c.keys.operationId ctx.operation.id) c.keys.operationName
        ctx.operation.name) c.keys.operationParentId
        ctx.operation.parentId) k =
      (if k = c.keys.operationId then
        some (jsOr (PropMap.get base k) ctx.operation.id)
      else if k = c.keys.operationName then
        some (jsOr (PropMap.get base k) ctx.operation.name)
      else if k = c.keys.operationParentId then
        some (jsOr (PropMap.get base k) ctx.operation.parentId)
      else PropMap.get base k) := by
  unfold fillIfFalsy
  by_cases hk1 : k = c.keys.operationId
  · subst hk1
    rw [if_pos rfl, PropMap.get_set_ne _ _ _ _ h13,
      PropMap.get_set_ne _ _ _ _ h12, PropMap.get_set_self]
  · rw [if_neg hk1]
    by_cases hk2 : k = c.keys.operationName
    · subst hk2
      rw [if_pos rfl, PropMap.get_set_ne _ _ _ _ h23, PropMap.get_set_self,
        PropMap.get_set_ne _ _ _ _ (Ne.symm h12)]
    · rw [if_neg hk2]
      by_cases hk3 : k = c.keys.operationParentId
      · subst hk3
        rw [if_pos rfl, PropMap.get_set_self,
          PropMap.get_set_ne _ _ _ _ (Ne.symm h23),
          PropMap.get_set_ne _ _ _ _ (Ne.symm h13)]
      · rw [if_neg hk3, PropMap.get_set_ne _ _ _ _ hk3,
          PropMap.get_set_ne _ _ _ _ hk2, PropMap.get_set_ne _ _ _ _ hk1]

/-- C9: `getTags` starts from the context-default tags, overlays every
override entry (override wins), and fills exactly the three well-known
correlation keys from the ambient correlation context when the merged
value is still falsy (absent or empty); stated as a pointwise
characterisation against `tagLookupSpec`.  The embedding is pure, so the
inputs cannot be mutated and the returned map is fresh by construction. -/
theorem claim_C9 (cc : Option CorrelationContext) (c : Context)
    (ov : Option PropMap)
    (htags : (c.tags.map Prod.fst).Nodup)
    (hov : ∀ o ∈ ov, (o.map Prod.fst).Nodup)
    (h12 : c.keys.operationId ≠ c.keys.operationName)
    (h13 : c.keys.operationId ≠ c.keys.operationParentId)
    (h23 : c.keys.operationName ≠ c.keys.operationParentId) :
    ∃ m, getTags cc (some c) ov = .ok m ∧
      ∀ k, PropMap.get m k = tagLookupSpec cc c ov k := by
  cases ov with
  | none =>
    cases cc with
    | none =>
      refine ⟨_, rfl, fun k => ?_⟩
      show PropMap.get (PropMap.overlay [] c.tags) k = PropMap.get c.tags k
      exact baseNone_get c htags k
    | some ctx =>
      refine ⟨_, rfl, fun k => ?_⟩
      show PropMap.get (fillIfFalsy (fillIfFalsy (fillIfFalsy
          (PropMap.overlay [] c.tags) c.keys.operationId ctx.operation.id)
          c.keys.operationName ctx.operation.name) c.keys.operationParentId
          ctx.operation.parentId) k =
        (if k = c.keys.operationId then
          some (jsOr (PropMap.get c.tags k) ctx.operation.id)
        else if k = c.keys.operationName then
          some (jsOr (PropMap.get c.tags k) ctx.operation.name)
        else if k = c.keys.operationParentId then
          some (jsOr (PropMap.get c.tags k) ctx.operation.parentId)
        else PropMap.get c.tags k)
      rw [fillThree_get _ c ctx h12 h13 h23 k, baseNone_get c htags k]
  | some o =>
    have hno := hov o rfl
    cases cc with
    | none =>
      refine ⟨_, rfl, fun k => ?_⟩
      show PropMap.get ((PropMap.overlay [] c.tags).overlay o) k =
        (match PropMap.get o k with
         | some v => some v
         | none => PropMap.get c.tags k)
      exact baseSome_get c o htags hno k
    | some ctx =>
      refine ⟨_, rfl, fun k => ?_⟩
      show PropMap.get (fillIfFalsy (fillIfFalsy (fillIfFalsy
          ((PropMap.overlay [] c.tags).overlay o) c.keys.operationId
          ctx.operation.id) c.keys.operationName ctx.operation.name)
          c.keys.operationParentId ctx.operation.parentId) k =
        (if k = c.keys.operationId then
          some (jsOr (match PropMap.get o k with
            | some v => some v
            | none => PropMap.get c.tags k) ctx.operation.id)
        else if k = c.keys.operationName then
          some (jsOr (match PropMap.get o k with
            | some v => some v
            | none => PropMap.get c.tags k) ctx.operation.name)
        else if k = c.keys.operationParentId then
          some (jsOr (match PropMap.get o k with
            | some v => some v
            | none => PropMap.get c.tags k) ctx.operation.parentId)
        else (match PropMap.get o k with
          | some v => some v
          | none => PropMap.get c.tags k))
      rw [fillThree_get _ c ctx h12 h13 h23 k, baseSome_get c o htags hno k]

/-- C9, witness: the characterisation at a concrete context, override
map and active correlation context. -/
theorem claim_C9_witness :
    ∃ m, getTags (some ⟨⟨"OID", "ON", "OPID"⟩⟩)
        (some ⟨[("k1", "v1")],
          ⟨"ai.operation.id", "ai.operation.name", "ai.operation.parentId"⟩⟩)
        (some [("k1", "o1")]) = .ok m ∧
      PropMap.get m "ai.operation.id" = some "OID" ∧
      PropMap.get m "k1" = some "o1" := by
  obtain ⟨m, hm, hall⟩ := claim_C9 (some ⟨⟨"OID", "ON", "OPID"⟩⟩)
    ⟨[("k1", "v1")],
      ⟨"ai.operation.id", "ai.operation.name", "ai.operation.parentId"⟩⟩
    (some [("k1", "o1")]) (by decide) (by intro o ho; cases ho; decide)
    (by decide) (by decide) (by decide)
  exact ⟨m, hm, by rw [hall]; rfl, by rw [hall]; rfl⟩

/-! ## Claim C10: null context with an active correlation context -/

/-- C10: when an ambient correlation context is active, `getTags`
unconditionally dereferences `context.keys`, so a call without a client
context raises a `TypeError` instead of returning a tag map — and
`createEnvelope` therefore errors for every recognized telemetry type in
that situation. -/
theorem claim_C10 :
    (∀ (cc : CorrelationContext) (ov : Option PropMap),
      getTags (some cc) none ov =
        .error (.typeError "Cannot read property keys of undefined")) ∧
    (∀ (t : Telemetry) (ty : String) (cp : Option PropMap)
        (cfg : Option Config) (cc : CorrelationContext) (now : String),
      ty ∈ recognizedTypes →
      ∃ e, createEnvelope t ty cp none cfg (some cc) now = .error e) := by
  constructor
  · intro cc ov
    cases ov <;> rfl
  · intro t ty cp cfg cc now hty
    refine ⟨.typeError "Cannot read property keys of undefined", ?_⟩
    simp only [recognizedTypes, List.mem_cons, List.mem_singleton,
      List.not_mem_nil, or_false] at hty
    rcases hty with h | h | h | h | h | h <;> subst h <;>
      cases cp <;> cases t.tagOverrides <;> rfl

/-- C10, witness: the `createEnvelope` clause at a concrete recognized
type. -/
theorem claim_C10_witness :
    ∃ e, createEnvelope sampleTelemetry DataTypes.MESSAGE none none none
      (some ⟨⟨"OID", "ON", "OPID"⟩⟩) "T" = .error e :=
  claim_C10.2 sampleTelemetry DataTypes.MESSAGE none none
    ⟨⟨"OID", "ON", "OPID"⟩⟩ "T" (by decide)

/-! ## Claim C2: unrecognized telemetry type -/

/-- C2, counterexample: the claim says an unrecognized type still
returns an envelope with a null body; in the source the null body is
dereferenced while computing the envelope name, so the call throws. -/
theorem claim_C2_counterexample :
    createEnvelope sampleTelemetry "Bogus" none none none none "T" =
      .error (.typeError "Cannot read property baseType of null") := by
  rfl

theorem dispatchData_eq_none (t : Telemetry) (ty : String)
    (hty : ty ∉ recognizedTypes) : dispatchData t ty = none := by
  simp only [recognizedTypes, List.mem_cons, List.mem_singleton,
    List.not_mem_nil, or_false, not_or] at hty
  obtain ⟨h1, h2, h3, h4, h5, h6⟩ := hty
  unfold dispatchData
  rw [if_neg h1, if_neg h2, if_neg h3, if_neg h4, if_neg h5, if_neg h6]

/-- C2, amended: for every telemetry type string outside the six
recognized discriminators, `createEnvelope` throws a `TypeError` — the
common-properties block dereferences the null body when common
properties are supplied, and the envelope-name computation dereferences
it otherwise; no envelope is returned. -/
theorem claim_C2_amended (t : Telemetry) (ty : String)
    (cp : Option PropMap) (ctx : Option Context) (cfg : Option Config)
    (cc : Option CorrelationContext) (now : String)
    (hty : ty ∉ recognizedTypes) :
    ∃ e, createEnvelope t ty cp ctx cfg cc now = .error e := by
  have hd := dispatchData_eq_none t ty hty
  cases cp with
  | none =>
    refine ⟨.typeError "Cannot read property baseType of null", ?_⟩
    unfold createEnvelope
    rw [hd]
  | some m =>
    refine ⟨.typeError "Cannot read property baseData of null", ?_⟩
    unfold createEnvelope
    rw [hd]

/-- C2, witness: the amended statement at a concrete unrecognized type,
with common properties present. -/
theorem claim_C2_witness :
    ∃ e, createEnvelope sampleTelemetry "AvailabilityData"
      (some [("a", "1")]) none none none "T" = .error e :=
  claim_C2_amended sampleTelemetry "AvailabilityData" (some [("a", "1")])
    none none none "T" (by decide)

/-! ## Claim C7: envelope name, baseType and version -/

theorem createEnvelope_eq (t : Telemetry) (ty : String)
    (cp : Option PropMap) (ctx : Option Context) (cfg : Option Config)
    (cc : Option CorrelationContext) (now : String) (d : DataRec)
    (hd : dispatchData t ty = some d) :
    createEnvelope t ty cp ctx cfg cc now =
      (let d' : DataRec :=
        match cp with
        | none => d
        | some m =>
          ⟨d.baseType, d.baseData.setProperties
            (validateStringMap (propMapToJsVal
              (mergeCommonProperties d.baseData.properties m)))⟩
      let iKey : String := effectiveIKey cfg
      match getTags cc ctx t.tagOverrides with
      | .error e => .error e
      | .ok tags =>
        .ok { data := some d', iKey := iKey,
              name := "Microsoft.ApplicationInsights." ++
                removeDashes iKey ++ "." ++
                strTake d'.baseType (d'.baseType.length - 4),
              tags := tags, time := now, ver := 1,
              sampleRate :=
                match cfg with
                | some c => c.samplingPercentage
                | none => 100 }) := by
  unfold createEnvelope
  rw [hd]
  cases cp <;> rfl

/-- C7: for each of the six recognized telemetry types, every envelope
`createEnvelope` returns carries `data.baseType` equal to the dispatched
discriminator, `name` equal to the fixed prefix, the instrumentation key
with dashes removed, a dot, and the discriminator with its trailing four
characters removed, and `ver` equal to 1. -/
theorem claim_C7 (t : Telemetry) (ty : String) (cp : Option PropMap)
    (ctx : Option Context) (cfg : Option Config)
    (cc : Option CorrelationContext) (now : String) (env : Envelope)
    (hty : ty ∈ recognizedTypes)
    (h : createEnvelope t ty cp ctx cfg cc now = .ok env) :
    (∃ b, env.data = some ⟨ty, b⟩) ∧
    env.name = "Microsoft.ApplicationInsights." ++
      removeDashes (effectiveIKey cfg) ++ "." ++
      strTake ty (ty.length - 4) ∧
    env.ver = 1 := by
  simp only [recognizedTypes, List.mem_cons, List.mem_singleton,
    List.not_mem_nil, or_false] at hty
  have main : ∀ d : DataRec, dispatchData t ty = some d → d.baseType = ty →
      (∃ b, env.data = some ⟨ty, b⟩) ∧
      env.name = "Microsoft.ApplicationInsights." ++
        removeDashes (effectiveIKey cfg) ++ "." ++
        strTake ty (ty.length - 4) ∧
      env.ver = 1 := by
    intro d hd hbt
    rw [createEnvelope_eq t ty cp ctx cfg cc now d hd] at h
    cases hg : getTags cc ctx t.tagOverrides with
    | error e =>
      rw [hg] at h
      exact absurd h (by simp)
    | ok tags =>
      rw [hg] at h
      cases cp with
      | none =>
        have he := Except.ok.inj h
        subst hbt
        refine ⟨⟨d.baseData, ?_⟩, ?_, ?_⟩
        · rw [← he]
        · rw [← he]
        · rw [← he]
      | some m =>
        have he := Except.ok.inj h
        subst hbt
        refine ⟨⟨d.baseData.setProperties
          (validateStringMap (propMapToJsVal
            (mergeCommonProperties d.baseData.properties m))), ?_⟩, ?_, ?_⟩
        · rw [← he]
        · rw [← he]
        · rw [← he]
  rcases hty with hh | hh | hh | hh | hh | hh <;> subst hh
  · exact main (createTraceData t) rfl rfl
  · exact main (createDependencyData t) rfl rfl
  · exact main (createEventData t) rfl rfl
  · exact main (createExceptionData t) rfl rfl
  · exact main (createRequestData t) rfl rfl
  · exact main (createMetricData t) rfl rfl

/-- C7, witness: a successful concrete call for the message type with a
dashed instrumentation key. -/
theorem claim_C7_witness :
    ∃ env, createEnvelope sampleTelemetry DataTypes.MESSAGE none none
        (some ⟨"ab-cd", 50⟩) none "T" = .ok env ∧
      (∃ b, env.data = some ⟨DataTypes.MESSAGE, b⟩) ∧
      env.name = "Microsoft.ApplicationInsights.abcd.Message" ∧
      env.ver = 1 := by
  have henv : createEnvelope sampleTelemetry DataTypes.MESSAGE none none
      (some ⟨"ab-cd", 50⟩) none "T" =
      .ok ⟨some ⟨"MessageData", .message ⟨"", none, 1⟩⟩, "ab-cd",
        "Microsoft.ApplicationInsights.abcd.Message", [], "T", 1, 50⟩ := by
    rfl
  have hfields := claim_C7 sampleTelemetry DataTypes.MESSAGE none none
    (some ⟨"ab-cd", 50⟩) none "T" _ (by decide) henv
  refine ⟨_, henv, hfields.1, ?_, hfields.2.2⟩
  rw [hfields.2.1]
  rfl

/-! ## Claim C1: stack truncation -/

theorem sumSizes_cons (p : StackFrame) (l : List StackFrame) :
    sumSizes (p :: l) = p.sizeInBytes + sumSizes l := by
  simp [sumSizes]

theorem sumSizes_append (a b : List StackFrame) :
    sumSizes (a ++ b) = sumSizes a + sumSizes b := by
  simp [sumSizes]

theorem sumSizes_take_succ (ps : List StackFrame) :
    ∀ i, i < ps.length →
      sumSizes (ps.take (i + 1)) =
        sumSizes (ps.take i) + (ps.getD i default).sizeInBytes := by
  induction ps with
  | nil => intro i h; simp at h
  | cons p ps ih =>
    intro i h
    cases i with
    | zero => simp [sumSizes]
    | succ j =>
      have hj : j < ps.length := by simpa using h
      have e1 : (p :: ps).take (j + 1 + 1) = p :: ps.take (j + 1) := rfl
      have e2 : (p :: ps).take (j + 1) = p :: ps.take j := rfl
      have e3 : (p :: ps).getD (j + 1) default = ps.getD j default := rfl
      rw [e1, e2, e3, sumSizes_cons, sumSizes_cons, ih j hj]
      omega

theorem sumSizes_drop_eq (ps : List StackFrame) :
    ∀ i, i < ps.length →
      sumSizes (ps.drop i) =
        (ps.getD i default).sizeInBytes + sumSizes (ps.drop (i + 1)) := by
  induction ps with
  | nil => intro i h; simp at h
  | cons p ps ih =>
    intro i h
    cases i with
    | zero => simp [sumSizes_cons]
    | succ j =>
      have hj : j < ps.length := by simpa using h
      have e1 : (p :: ps).drop (j + 1) = ps.drop j := rfl
      have e2 : (p :: ps).drop (j + 1 + 1) = ps.drop (j + 1) := rfl
      have e3 : (p :: ps).getD (j + 1) default = ps.getD j default := rfl
      rw [e1, e2, e3, ih j hj]

/-- The invariant analysis of the two-pointer scan: whenever the scan
reports a splice, the spliced list keeps its total size within the
threshold. -/
theorem spliceLoop_spec (ps : List StackFrame) :
    ∀ (r left size accL accR : Nat),
      r < ps.length →
      size = sumSizes (ps.take left) + sumSizes (ps.drop (r + 1)) →
      size ≤ exceptionParsedStackThreshold →
      accL ≤ accR + 1 → accR < ps.length →
      sumSizes (ps.take accL) + sumSizes (ps.drop (accR + 1)) ≤
        exceptionParsedStackThreshold →
      ∀ a hm, spliceLoop ps left r size accL accR = some (a, hm) →
        a ≤ a + hm ∧ a + hm ≤ ps.length ∧
        sumSizes (ps.take a ++ ps.drop (a + hm)) ≤
          exceptionParsedStackThreshold := by
  intro r
  induction r with
  | zero =>
    intro left size accL accR _ _ _ _ _ _ a hm hsp
    exact absurd hsp (by simp [spliceLoop])
  | succ rr ih =>
    intro left size accL accR hr hsize hsle haccle haccR hkept a hm hsp
    by_cases hlr : left < rr + 1
    · have hsp2 : (if size + (ps.getD left default).sizeInBytes +
          (ps.getD (rr + 1) default).sizeInBytes >
            exceptionParsedStackThreshold then
          some (accL, accR + 1 - accL)
        else spliceLoop ps (left + 1) rr
          (size + (ps.getD left default).sizeInBytes +
            (ps.getD (rr + 1) default).sizeInBytes) left (rr + 1)) =
          some (a, hm) := by
        rw [← hsp]
        show _ = (if left < rr + 1 then _ else none)
        rw [if_pos hlr]
      by_cases hgt : size + (ps.getD left default).sizeInBytes +
          (ps.getD (rr + 1) default).sizeInBytes >
          exceptionParsedStackThreshold
      · rw [if_pos hgt] at hsp2
        have hpair := Option.some.inj hsp2
        have ha : a = accL := (congrArg Prod.fst hpair).symm
        have hhm : hm = accR + 1 - accL := (congrArg Prod.snd hpair).symm
        refine ⟨Nat.le_add_right a hm, by omega, ?_⟩
        have hb : a + hm = accR + 1 := by omega
        rw [sumSizes_append, hb, ha]
        exact hkept
      · rw [if_neg hgt] at hsp2
        have hleft : left < ps.length := by omega
        have hrlt : rr + 1 < ps.length := hr
        have hsize2 : size + (ps.getD left default).sizeInBytes +
            (ps.getD (rr + 1) default).sizeInBytes =
            sumSizes (ps.take (left + 1)) + sumSizes (ps.drop (rr + 1)) := by
          rw [sumSizes_take_succ ps left hleft,
            sumSizes_drop_eq ps (rr + 1) hrlt, hsize]
          omega
        exact ih (left + 1) _ left (rr + 1) (by omega) hsize2 (by omega)
          (by omega) hrlt (by rw [← hsize]; exact hsle) a hm hsp2
    · have : spliceLoop ps left (rr + 1) size accL accR = none := by
        show (if left < rr + 1 then _ else none) = none
        rw [if_neg hlr]
      rw [this] at hsp
      exact absurd hsp (by simp)

/-- C1, amended: the survivors of `parseStack` are always a prefix and a
suffix of the parsed frames (one contiguous middle span removed, order
preserved), and whenever any frame was actually removed the remaining
total size is within the 32 KiB threshold; but when the two-pointer scan
exhausts without overstepping the threshold (a large middle frame) no
frame is removed and the total may stay above the threshold — the
unconditional bound of the claim fails. -/
theorem claim_C1_amended (stack : List Char) :
    (∃ a b, a ≤ b ∧ b ≤ (parseFrames stack).length ∧
      parseStack stack =
        (parseFrames stack).take a ++ (parseFrames stack).drop b) ∧
    (parseStack stack ≠ parseFrames stack →
      sumSizes (parseStack stack) ≤ exceptionParsedStackThreshold) := by
  have hps : parseStack stack =
      (if sumSizes (parseFrames stack) > exceptionParsedStackThreshold then
        match spliceLoop (parseFrames stack) 0
            ((parseFrames stack).length - 1) 0 0
            ((parseFrames stack).length - 1) with
        | some (start, count) =>
          (parseFrames stack).take start ++
            (parseFrames stack).drop (start + count)
        | none => parseFrames stack
      else parseFrames stack) := rfl
  have hid : ∀ h : parseStack stack = parseFrames stack,
      (∃ a b, a ≤ b ∧ b ≤ (parseFrames stack).length ∧
        parseStack stack =
          (parseFrames stack).take a ++ (parseFrames stack).drop b) ∧
      (parseStack stack ≠ parseFrames stack →
        sumSizes (parseStack stack) ≤ exceptionParsedStackThreshold) := by
    intro h
    refine ⟨⟨(parseFrames stack).length, (parseFrames stack).length,
      le_refl _, le_refl _, ?_⟩, fun hne => absurd h hne⟩
    rw [h, List.take_length, List.drop_length, List.append_nil]
  by_cases hbig : sumSizes (parseFrames stack) > exceptionParsedStackThreshold
  · rw [if_pos hbig] at hps
    cases hloop : spliceLoop (parseFrames stack) 0
        ((parseFrames stack).length - 1) 0 0
        ((parseFrames stack).length - 1) with
    | none =>
      rw [hloop] at hps
      exact hid hps
    | some pair =>
      obtain ⟨a0, hm0⟩ := pair
      rw [hloop] at hps
      have hlen : 1 ≤ (parseFrames stack).length := by
        by_contra hc
        have h0 : parseFrames stack = [] :=
          List.eq_nil_of_length_eq_zero (by omega)
        rw [h0] at hbig
        exact absurd hbig (by simp [sumSizes, exceptionParsedStackThreshold])
      have hdrop0 : sumSizes ((parseFrames stack).drop
          ((parseFrames stack).length - 1 + 1)) = 0 := by
        have : (parseFrames stack).length - 1 + 1 =
            (parseFrames stack).length := by omega
        rw [this, List.drop_length]
        rfl
      have hspec := spliceLoop_spec (parseFrames stack)
        ((parseFrames stack).length - 1) 0 0 0
        ((parseFrames stack).length - 1)
        (by omega)
        (by rw [hdrop0]; rfl)
        (Nat.zero_le _)
        (by omega) (by omega)
        (by rw [hdrop0]; simp [sumSizes])
        a0 hm0 hloop
      exact ⟨⟨a0, a0 + hm0, hspec.1, hspec.2.1, hps⟩,
        fun _ => by rw [hps]; exact hspec.2.2⟩
  · rw [if_neg hbig] at hps
    exact hid hps

/-! ## Evaluating the frame matcher on the synthetic C1 lines -/

theorem drop_append_len {α : Type} (l t : List α) :
    ∀ j : Nat, (l ++ t).drop (l.length + j) = t.drop j := by
  induction l with
  | nil => intro j; simp
  | cons c l0 ih =>
    intro j
    have e : (c :: l0).length + j = (l0.length + j) + 1 := by
      simp [List.length_cons]; omega
    rw [List.cons_append, e, List.drop_succ_cons]
    exact ih j

theorem takeWhile_file_replicate (t : List Char) :
    ∀ n : Nat, (List.replicate n 'a' ++ t).takeWhile isFileChar =
      List.replicate n 'a' ++ t.takeWhile isFileChar := by
  intro n
  induction n with
  | zero => simp
  | succ m ih =>
    rw [List.replicate_succ, List.cons_append,
      List.takeWhile_cons_of_pos (by decide), ih, ← List.cons_append,
      ← List.replicate_succ]

theorem frameTail_takeWhile (n : Nat) :
    ((frameTail n).takeWhile isFileChar).length = n + 5 := by
  show ((List.replicate n 'a' ++ ':' :: '1' :: ':' :: '2' :: [')']).takeWhile
    isFileChar).length = n + 5
  rw [takeWhile_file_replicate, List.length_append, List.length_replicate]
  rfl

theorem frameTail_drop (n : Nat) : ∀ j : Nat,
    (frameTail n).drop (n + j) =
      (':' :: '1' :: ':' :: '2' :: [')']).drop j := by
  intro j
  have h := drop_append_len (List.replicate n 'a')
    (':' :: '1' :: ':' :: '2' :: [')']) j
  rw [List.length_replicate] at h
  exact h

theorem frameTail_drop_self (n : Nat) :
    (frameTail n).drop n = ':' :: '1' :: ':' :: '2' :: [')'] := by
  have h := drop_append_len (List.replicate n 'a')
    (':' :: '1' :: ':' :: '2' :: [')']) 0
  rw [List.length_replicate, Nat.add_zero, List.drop_zero] at h
  exact h

theorem frameTail_take (n : Nat) :
    (frameTail n).take n = List.replicate n 'a' :=
  List.take_left' (List.length_replicate n 'a')

theorem fileCandAt_n5 (n : Nat) :
    fileCandAt (frameTail n) (n + 5) = none := by
  unfold fileCandAt
  rw [frameTail_drop n 5]
  rfl

theorem fileCandAt_n4 (n : Nat) :
    fileCandAt (frameTail n) (n + 4) = none := by
  unfold fileCandAt
  rw [frameTail_drop n 4]
  rfl

theorem fileCandAt_n3 (n : Nat) :
    fileCandAt (frameTail n) (n + 3) = none := by
  unfold fileCandAt
  rw [frameTail_drop n 3]
  rfl

theorem fileCandAt_n2 (n : Nat) :
    fileCandAt (frameTail n) (n + 2) = none := by
  unfold fileCandAt
  rw [frameTail_drop n 2]
  rfl

theorem fileCandAt_n1 (n : Nat) :
    fileCandAt (frameTail n) (n + 1) = none := by
  unfold fileCandAt
  rw [frameTail_drop n 1]
  rfl

theorem fileCandAt_self (n : Nat) :
    fileCandAt (frameTail n) n = some ⟨[], List.replicate n 'a', ['1']⟩ := by
  unfold fileCandAt
  rw [frameTail_drop_self n]
  show (matchLineCol ('1' :: ':' :: '2' :: [')'])).map
      (fun c => (⟨[], (frameTail n).take n, c.g5⟩ : FrameCaps)) =
    some ⟨[], List.replicate n 'a', ['1']⟩
  rw [show matchLineCol ('1' :: ':' :: '2' :: [')']) =
    some ⟨[], [], ['1']⟩ from rfl]
  simp [frameTail_take]

theorem matchFileAndLine_frameTail (m : Nat) :
    matchFileAndLine (frameTail (m + 1)) =
      some ⟨[], List.replicate (m + 1) 'a', ['1']⟩ := by
  unfold matchFileAndLine
  rw [frameTail_takeWhile (m + 1)]
  have e5 : fileCandLoop (frameTail (m + 1)) (m + 1 + 5) =
      (fileCandAt (frameTail (m + 1)) (m + 1 + 5)).orElse
        fun _ => fileCandLoop (frameTail (m + 1)) (m + 1 + 4) := rfl
  rw [e5, fileCandAt_n5 (m + 1)]
  show fileCandLoop (frameTail (m + 1)) (m + 1 + 4) = _
  have e4 : fileCandLoop (frameTail (m + 1)) (m + 1 + 4) =
      (fileCandAt (frameTail (m + 1)) (m + 1 + 4)).orElse
        fun _ => fileCandLoop (frameTail (m + 1)) (m + 1 + 3) := rfl
  rw [e4, fileCandAt_n4 (m + 1)]
  show fileCandLoop (frameTail (m + 1)) (m + 1 + 3) = _
  have e3 : fileCandLoop (frameTail (m + 1)) (m + 1 + 3) =
      (fileCandAt (frameTail (m + 1)) (m + 1 + 3)).orElse
        fun _ => fileCandLoop (frameTail (m + 1)) (m + 1 + 2) := rfl
  rw [e3, fileCandAt_n3 (m + 1)]
  show fileCandLoop (frameTail (m + 1)) (m + 1 + 2) = _
  have e2 : fileCandLoop (frameTail (m + 1)) (m + 1 + 2) =
      (fileCandAt (frameTail (m + 1)) (m + 1 + 2)).orElse
        fun _ => fileCandLoop (frameTail (m + 1)) (m + 1 + 1) := rfl
  rw [e2, fileCandAt_n2 (m + 1)]
  show fileCandLoop (frameTail (m + 1)) (m + 1 + 1) = _
  have e1 : fileCandLoop (frameTail (m + 1)) (m + 1 + 1) =
      (fileCandAt (frameTail (m + 1)) (m + 1 + 1)).orElse
        fun _ => fileCandLoop (frameTail (m + 1)) (m + 1) := rfl
  rw [e1, fileCandAt_n1 (m + 1)]
  show fileCandLoop (frameTail (m + 1)) (m + 1) = _
  have e0 : fileCandLoop (frameTail (m + 1)) (m + 1) =
      (fileCandAt (frameTail (m + 1)) (m + 1)).orElse
        fun _ => fileCandLoop (frameTail (m + 1)) m := rfl
  rw [e0, fileCandAt_self (m + 1)]
  rfl

theorem matchSeparatorOn_paren (m : Nat) :
    matchSeparatorOn (' ' :: '(' :: frameTail (m + 1)) =
      some ⟨[], List.replicate (m + 1) 'a', ['1']⟩ := by
  have e : matchSeparatorOn (' ' :: '(' :: frameTail (m + 1)) =
      (matchFileAndLine (frameTail (m + 1))).orElse
        fun _ => matchFileAndLine ('(' :: frameTail (m + 1)) := rfl
  rw [e, matchFileAndLine_frameTail m]
  rfl

theorem matchMethodFrom_line (m : Nat) :
    matchMethodFrom [] (' ' :: 'f' :: ' ' :: '(' :: frameTail (m + 1)) =
      some ⟨[' ', 'f'], List.replicate (m + 1) 'a', ['1']⟩ := by
  have s1 : matchMethodFrom []
      (' ' :: 'f' :: ' ' :: '(' :: frameTail (m + 1)) =
      matchMethodFrom [' '] ('f' :: ' ' :: '(' :: frameTail (m + 1)) := rfl
  have s2 : matchMethodFrom [' ']
      ('f' :: ' ' :: '(' :: frameTail (m + 1)) =
      matchMethodFrom [' ', 'f'] (' ' :: '(' :: frameTail (m + 1)) := rfl
  have s3 : matchMethodFrom [' ', 'f'] (' ' :: '(' :: frameTail (m + 1)) =
      match matchSeparatorOn (' ' :: '(' :: frameTail (m + 1)) with
      | some c => some ⟨[' ', 'f'], c.g4, c.g5⟩
      | none =>
        if isDotChar ' ' then
          matchMethodFrom [' ', 'f', ' '] ('(' :: frameTail (m + 1))
        else none := rfl
  rw [s1, s2, s3, matchSeparatorOn_paren m]

theorem matchFrame_lineChars (m : Nat) :
    matchFrame (lineChars (m + 1)) =
      some ⟨[' ', 'f'], List.replicate (m + 1) 'a', ['1']⟩ := by
  have e : matchFrame (lineChars (m + 1)) =
      (matchMethodFrom []
        (' ' :: 'f' :: ' ' :: '(' :: frameTail (m + 1))).orElse
        fun _ => matchAfterWs (lineChars (m + 1)) 1 := rfl
  rw [e, matchMethodFrom_line m]
  rfl

theorem dropWhile_reverse_append (l : List Char) (x : Char)
    (hx : isSpaceJ x = false) :
    ((l ++ [x]).reverse).dropWhile isSpaceJ = (l ++ [x]).reverse := by
  rw [List.reverse_append]
  show List.dropWhile isSpaceJ (x :: l.reverse) = x :: l.reverse
  rw [List.dropWhile_cons_of_neg (by simp [hx])]

theorem trimL_replicate (m : Nat) :
    trimL (List.replicate (m + 1) 'a') = List.replicate (m + 1) 'a' := by
  have h1 : List.dropWhile isSpaceJ (List.replicate (m + 1) 'a') =
      List.replicate (m + 1) 'a' := by
    rw [List.replicate_succ, List.dropWhile_cons_of_neg (by decide),
      ← List.replicate_succ]
  unfold trimL
  rw [h1, List.reverse_replicate, h1, List.reverse_replicate]

theorem trimL_lineChars (m : Nat) :
    trimL (lineChars (m + 1)) =
      'a' :: 't' :: ' ' :: 'f' :: ' ' :: '(' :: frameTail (m + 1) := by
  have h0 : List.dropWhile isSpaceJ (lineChars (m + 1)) =
      'a' :: 't' :: ' ' :: 'f' :: ' ' :: '(' :: frameTail (m + 1) := rfl
  have hY : ('a' :: 't' :: ' ' :: 'f' :: ' ' :: '(' :: frameTail (m + 1)) =
      ('a' :: 't' :: ' ' :: 'f' :: ' ' :: '(' ::
        (List.replicate (m + 1) 'a' ++ [':', '1', ':', '2'])) ++ [')'] := by
    simp [frameTail, List.append_assoc]
  unfold trimL
  rw [h0, hY, dropWhile_reverse_append _ ')' (by decide),
    List.reverse_reverse]

theorem mkStackFrame_lineChars (m l0 : Nat)
    (hl : (Nat.repr l0).length = 1) :
    mkStackFrame (lineChars (m + 1)) l0
      ⟨[' ', 'f'], List.replicate (m + 1) 'a', ['1']⟩ =
      lineFrame (m + 1) l0 := by
  have hne : List.replicate (m + 1) 'a' ≠ [] := by
    rw [List.replicate_succ]
    exact List.cons_ne_nil _ _
  have hrep := trimL_replicate m
  have hlc := trimL_lineChars m
  simp only [mkStackFrame, hrep, hlc, lineFrame]
  rw [show trimL [' ', 'f'] = ['f'] from rfl]
  rw [if_neg (by decide : ¬ (['f'] : List Char) = []), if_neg hne]
  rw [StackFrame.mk.injEq]
  refine ⟨rfl, rfl, rfl, rfl, rfl, ?_⟩
  rw [show digitsToNat ['1'] = 1 from rfl,
    show (Nat.repr 1).length = 1 from rfl, hl]
  simp [frameTail, List.length_append, List.length_replicate,
    StackFrame.baseSize]
  omega

theorem newline_not_mem_lineChars (n : Nat) : '\n' ∉ lineChars n := by
  have hrep : '\n' ∉ List.replicate n 'a' := by
    intro h
    exact absurd (List.eq_of_mem_replicate h) (by decide)
  simp only [lineChars, frameTail, List.mem_cons, List.mem_append,
    List.not_mem_nil, or_false, not_or]
  refine ⟨by decide, by decide, by decide, by decide, by decide, by decide,
    by decide, by decide, ?_⟩
  exact ⟨hrep, by decide, by decide, by decide, by decide, by decide⟩

theorem splitStack_big : splitOnChar '\n' bigStackC1 =
    ["  at g (b:1:2)".data, lineChars 16300, "  at h (c:3:4)".data] := by
  unfold bigStackC1
  rw [splitOnChar_append '\n'
      (lineChars 16300 ++ '\n' :: "  at h (c:3:4)".data)
      "  at g (b:1:2)".data,
    splitOnChar_append '\n' "  at h (c:3:4)".data (lineChars 16300),
    splitOnChar_of_not_mem '\n' "  at g (b:1:2)".data (by decide),
    splitOnChar_of_not_mem '\n' (lineChars 16300)
      (newline_not_mem_lineChars 16300),
    splitOnChar_of_not_mem '\n' "  at h (c:3:4)".data (by decide)]
  rfl

theorem matchFrame_gline : matchFrame "  at g (b:1:2)".data =
    some ⟨[' ', 'g'], ['b'], ['1']⟩ := rfl

theorem matchFrame_hline : matchFrame "  at h (c:3:4)".data =
    some ⟨[' ', 'h'], ['c'], ['3']⟩ := rfl

theorem parseStep_eq (acc : List StackFrame × Nat) (f : List Char)
    (caps : FrameCaps) (h : matchFrame f = some caps) :
    parseStep acc f = (acc.1 ++ [mkStackFrame f acc.2 caps], acc.2 + 1) := by
  unfold parseStep
  rw [h]

theorem foldl_parseStep_cons (f : List Char) (fs : List (List Char))
    (caps : FrameCaps) (h : matchFrame f = some caps)
    (acc : List StackFrame) (k : Nat) :
    List.foldl parseStep (acc, k) (f :: fs) =
      List.foldl parseStep (acc ++ [mkStackFrame f k caps], k + 1) fs := by
  rw [List.foldl_cons, parseStep_eq (acc, k) f caps h]

theorem parseFrames_eq (stack : List Char) :
    parseFrames stack =
      ((splitOnChar '\n' stack).foldl parseStep ([], 0)).1 := rfl

theorem parseFrames_big : parseFrames bigStackC1 = bigFramesC1 := by
  have hmf2 : matchFrame (lineChars 16300) =
      some ⟨[' ', 'f'], List.replicate 16300 'a', ['1']⟩ :=
    matchFrame_lineChars 16299
  have hm2 : ∀ l0 : Nat, (Nat.repr l0).length = 1 →
      mkStackFrame (lineChars 16300) l0
        ⟨[' ', 'f'], List.replicate 16300 'a', ['1']⟩ = lineFrame 16300 l0 :=
    fun l0 h => mkStackFrame_lineChars 16299 l0 h
  rw [parseFrames_eq, splitStack_big,
    foldl_parseStep_cons _ _ _ matchFrame_gline,
    foldl_parseStep_cons _ _ _ hmf2,
    foldl_parseStep_cons _ _ _ matchFrame_hline,
    List.foldl_nil,
    hm2 (0 + 1) (by decide)]
  rfl

theorem splitStack_wit : splitOnChar '\n' witStackC1 =
    [lineChars 2964, lineChars 2964, lineChars 2964, lineChars 2964,
     lineChars 2964, lineChars 2964, lineChars 2964] := by
  have hone : splitOnChar '\n' (lineChars 2964) = [lineChars 2964] :=
    splitOnChar_of_not_mem '\n' _ (newline_not_mem_lineChars 2964)
  unfold witStackC1
  rw [splitOnChar_append, splitOnChar_append, splitOnChar_append,
    splitOnChar_append, splitOnChar_append, splitOnChar_append, hone]
  rfl

theorem parseFrames_wit : parseFrames witStackC1 = witFramesC1 := by
  have hmf : matchFrame (lineChars 2964) =
      some ⟨[' ', 'f'], List.replicate 2964 'a', ['1']⟩ :=
    matchFrame_lineChars 2963
  have hm : ∀ l0 : Nat, (Nat.repr l0).length = 1 →
      mkStackFrame (lineChars 2964) l0
        ⟨[' ', 'f'], List.replicate 2964 'a', ['1']⟩ = lineFrame 2964 l0 :=
    fun l0 h => mkStackFrame_lineChars 2963 l0 h
  rw [parseFrames_eq, splitStack_wit,
    foldl_parseStep_cons _ _ _ hmf, foldl_parseStep_cons _ _ _ hmf,
    foldl_parseStep_cons _ _ _ hmf, foldl_parseStep_cons _ _ _ hmf,
    foldl_parseStep_cons _ _ _ hmf, foldl_parseStep_cons _ _ _ hmf,
    foldl_parseStep_cons _ _ _ hmf, List.foldl_nil,
    hm 0 (by decide), hm (0 + 1) (by decide), hm (0 + 1 + 1) (by decide),
    hm (0 + 1 + 1 + 1) (by decide), hm (0 + 1 + 1 + 1 + 1) (by decide),
    hm (0 + 1 + 1 + 1 + 1 + 1) (by decide),
    hm (0 + 1 + 1 + 1 + 1 + 1 + 1) (by decide)]
  rfl

theorem parseStack_eq (stack : List Char) :
    parseStack stack =
      (if sumSizes (parseFrames stack) > exceptionParsedStackThreshold
      then
        match spliceLoop (parseFrames stack) 0
            ((parseFrames stack).length - 1) 0 0
            ((parseFrames stack).length - 1) with
        | some (start, count) =>
          (parseFrames stack).take start ++
            (parseFrames stack).drop (start + count)
        | none => parseFrames stack
      else parseFrames stack) := rfl

/-- C1, counterexample: a three-frame stack whose middle frame alone
weighs 32672 bytes totals 32820 bytes; the two-pointer scan consumes the
two outer frames (148 bytes), the pointers meet without overstepping the
threshold, nothing is spliced out, and the returned stack still exceeds
32 KiB. -/
theorem claim_C1_counterexample :
    exceptionParsedStackThreshold < sumSizes (parseStack bigStackC1) := by
  have hsum : sumSizes bigFramesC1 = 32820 := rfl
  have hps := parseStack_eq bigStackC1
  rw [parseFrames_big] at hps
  rw [if_pos (by rw [hsum]; decide)] at hps
  rw [show spliceLoop bigFramesC1 0 (bigFramesC1.length - 1) 0 0
      (bigFramesC1.length - 1) = none from rfl] at hps
  rw [hps]
  show exceptionParsedStackThreshold < sumSizes bigFramesC1
  rw [hsum]
  decide

/-- C1, witness for the amended claim at a concrete input: a seven-frame
42000-byte stack is actually truncated (to its outermost two frames),
and the truncated stack meets the 32 KiB bound. -/
theorem claim_C1_witness :
    parseStack witStackC1 ≠ parseFrames witStackC1 ∧
    sumSizes (parseStack witStackC1) ≤ exceptionParsedStackThreshold := by
  have hsum : sumSizes witFramesC1 = 42000 := rfl
  have hps := parseStack_eq witStackC1
  rw [parseFrames_wit] at hps
  rw [if_pos (by rw [hsum]; decide)] at hps
  rw [show spliceLoop witFramesC1 0 (witFramesC1.length - 1) 0 0
      (witFramesC1.length - 1) = some (1, 5) from rfl] at hps
  have hps2 : parseStack witStackC1 =
      [lineFrame 2964 0, lineFrame 2964 6] := by
    rw [hps]
    rfl
  have hne : parseStack witStackC1 ≠ parseFrames witStackC1 := by
    rw [hps2, parseFrames_wit]
    intro h
    have hlen := congrArg List.length h
    rw [show ([lineFrame 2964 0, lineFrame 2964 6] :
        List StackFrame).length = 2 from rfl,
      show witFramesC1.length = 7 from rfl] at hlen
    exact absurd hlen (by decide)
  exact ⟨hne, (claim_C1_amended witStackC1).2 hne⟩
